import Mathlib

/-!
Verification of the Operational Genomics core (digital_genome_core.py and
cognitive_core.py) against its natural-language specification.

Conventions of the shallow embedding:
* Python `float` arithmetic is modelled exactly over `ℚ`; all score formulas in
  the source use only +, -, *, /, `min` and `max`, which are exact here.
* Python `dict`s are modelled as insertion-ordered association lists; assigning
  to an existing key replaces the value in place, otherwise the pair is
  appended, which matches CPython's ordered-dict semantics.
* Wall-clock timestamps (`time.time()`) are passed in as explicit `ℚ`
  parameters, or elided from records whose claims do not mention them.
* `make_uid`'s SHA-256 digest is modelled by the colon-joined payload string
  itself (an injective stand-in); no claim below depends on the digest function.
-/

namespace DGenome

/-- `listStarts n h` : the list `n` is an initial segment of `h`
(used to model Python's substring membership test). -/
def listStarts : List Char → List Char → Bool
  | [], _ => true
  | _ :: _, [] => false
  | a :: as, b :: bs => a == b && listStarts as bs

/-- `listHas n h` : the list `n` occurs contiguously inside `h`
(Python's `n in h` on strings). -/
def listHas (n : List Char) : List Char → Bool
  | [] => n.isEmpty
  | b :: bs => listStarts n (b :: bs) || listHas n bs

/-- Python `needle in hay` on strings. -/
def strHas (needle hay : String) : Bool :=
  listHas needle.toList hay.toList

/-- Python `s.lower()` (a structural reimplementation of `String.toLower`,
which the kernel cannot evaluate). -/
def strLower (s : String) : String :=
  String.mk (s.data.map Char.toLower)

/-- Worker for `tokensOf`: splits at spaces, dropping empty tokens;
`cur` holds the reversed characters of the token being read. -/
def splitWords : List Char → List Char → List String
  | [], cur => if cur = [] then [] else [String.mk cur.reverse]
  | c :: rest, cur =>
    if c = ' ' then
      (if cur = [] then splitWords rest []
       else String.mk cur.reverse :: splitWords rest [])
    else splitWords rest (c :: cur)

/-- Python `s.split()` restricted to the space separator: the non-empty
whitespace-separated tokens of `s`. -/
def tokensOf (s : String) : List String :=
  splitWords s.data []

/-- Python `set(s.lower().split())`: the distinct lowered tokens of `s`. -/
def wordSet (s : String) : List String :=
  (tokensOf (strLower s)).dedup

/-- Number of distinct words common to the two strings
(`len(set(a.split()) & set(b.split()))` after lowering). -/
def wordOverlap (a b : String) : Nat :=
  ((wordSet a).filter (fun w => w ∈ wordSet b)).length

/-- Fallible elementwise mapping (a Python loop that builds a list and
propagates the first raised error). -/
def listMapOption {α β : Type} (f : α → Option β) : List α → Option (List β)
  | [] => some []
  | a :: t => do
    let b ← f a
    let bs ← listMapOption f t
    pure (b :: bs)

/-- Association-list lookup (Python `d.get(k)` on a str-keyed dict). -/
def alistGet {β : Type} (l : List (String × β)) (k : String) : Option β :=
  (l.find? (fun p => p.1 == k)).map (·.2)

/-- `make_uid` (digital_genome_core.py): deterministic identifier from a
category and semantic components.  The SHA-256 digest is modelled by the
joined payload itself. -/
def make_uid (category : String) (components : List String) : String :=
  category ++ ":" ++ String.intercalate ":" components

-- ============================================================
-- Enumerations (digital_genome_core.py)
-- ============================================================

/-- `SafetyLevel` enum. -/
inductive SafetyLevel
  | info
  | warning
  | critical
deriving DecidableEq, Repr

/-- `GeneStatus` enum. -/
inductive GeneStatus
  | draft
  | active
  | deprecated
  | archived
deriving DecidableEq, Repr

/-- `ExecutionResult` enum; `mixed` models the source's `PARTIAL`
(`partial` is reserved in Lean). -/
inductive ExecutionResult
  | success
  | mixed
  | failure
  | aborted
deriving DecidableEq, Repr

def SafetyLevel.toStr : SafetyLevel → String
  | .info => "info"
  | .warning => "warning"
  | .critical => "critical"

def SafetyLevel.ofStr : String → Option SafetyLevel
  | "info" => some .info
  | "warning" => some .warning
  | "critical" => some .critical
  | _ => none

def GeneStatus.toStr : GeneStatus → String
  | .draft => "draft"
  | .active => "active"
  | .deprecated => "deprecated"
  | .archived => "archived"

def GeneStatus.ofStr : String → Option GeneStatus
  | "draft" => some .draft
  | "active" => some .active
  | "deprecated" => some .deprecated
  | "archived" => some .archived
  | _ => none

-- ============================================================
-- PraxeologicalCodon (digital_genome_core.py)
-- ============================================================

/-- `PraxeologicalCodon`: the immutable atomic unit.  `parameters` and
`context` (Python `Dict[str, Any]`) are modelled as string-valued maps. -/
structure PraxeologicalCodon where
  entity_id : String
  action_id : String
  target_state_id : String
  parameters : List (String × String) := []
  preconditions : List String := []
  postconditions : List String := []
  safety_level : SafetyLevel := .info
  context : List (String × String) := []
deriving DecidableEq, Repr

/-- `PraxeologicalCodon.uid`. -/
def PraxeologicalCodon.uid (c : PraxeologicalCodon) : String :=
  make_uid "codon" [c.entity_id, c.action_id, c.target_state_id]

-- ============================================================
-- OperationalGene (digital_genome_core.py)
-- ============================================================

/-- `OperationalGene`: the mutable template record, exactly the fields of the
source dataclass (`metadata` as a string-valued map, timestamps as `ℚ`). -/
structure OperationalGene where
  uid : String
  name : String
  purpose : String
  version : String := "1.0.0"
  status : GeneStatus := .draft
  codons : List PraxeologicalCodon := []
  activation_conditions : List String := []
  postconditions : List String := []
  exception_handlers : List (String × String) := []
  evaluation_metrics : List String := []
  metadata : List (String × String) := []
  fitness_scores : List (String × ℚ) := []
  parent_genes : List String := []
  created_at : ℚ := 0
  modified_at : ℚ := 0
deriving DecidableEq, Repr

/-- `OperationalGene.safety_level` property: highest level among codons. -/
def OperationalGene.safetyLevel (g : OperationalGene) : SafetyLevel :=
  if g.codons = [] then .info
  else if g.codons.any (fun c => c.safety_level = .critical) then .critical
  else if g.codons.any (fun c => c.safety_level = .warning) then .warning
  else .info

/-- `OperationalGene.deprecate`. -/
def OperationalGene.deprecate (g : OperationalGene) (reason : String) (ts : ℚ) :
    OperationalGene :=
  { g with status := .deprecated,
           metadata := (if g.metadata.any (fun p => p.1 == "deprecation_reason")
                        then g.metadata.map (fun p =>
                          if p.1 == "deprecation_reason" then (p.1, reason) else p)
                        else g.metadata ++ [("deprecation_reason", reason)]),
           modified_at := ts }

-- ============================================================
-- DigitalGenome (digital_genome_core.py)
-- ============================================================

/-- One entry of the genome's append-only `evolution_history`. -/
structure EvolutionEvent where
  timestamp : ℚ
  event_type : String
  gene_uid : String
  gene_name : String
  stem : String
  chromosome : String
deriving DecidableEq, Repr

/-- One entry of an ontology registry (`register_entity/action/state`).
`kind` carries the `type`/`category` field. -/
structure RegistryEntry where
  name : String
  kind : String
  attributes : List (String × String) := []
  registered_at : ℚ := 0
deriving DecidableEq, Repr

/-- `DigitalGenome`: the store.  `genes` models the Python dict keyed by
`gene.uid` as an insertion-ordered list (the key always equals the stored
gene's `uid`, as `insert_gene` maintains). -/
structure DigitalGenome where
  genome_id : String
  name : String
  genes : List OperationalGene := []
  stems : List (String × List String) := []
  chromosomes : List (String × List String) := []
  evolution_history : List EvolutionEvent := []
  entity_registry : List (String × RegistryEntry) := []
  action_registry : List (String × RegistryEntry) := []
  state_registry : List (String × RegistryEntry) := []
  created_at : ℚ := 0
  modified_at : ℚ := 0
deriving DecidableEq, Repr

/-- Python dict assignment `genes[g.uid] = g`: replace in place if the key is
present, else append. -/
def dictInsertGene (l : List OperationalGene) (g : OperationalGene) :
    List OperationalGene :=
  if l.any (fun h => h.uid == g.uid) then
    l.map (fun h => if h.uid == g.uid then g else h)
  else l ++ [g]

/-- `defaultdict(list)` append: `d[k].append(v)`. -/
def mapAppend (l : List (String × List String)) (k v : String) :
    List (String × List String) :=
  if l.any (fun p => p.1 == k) then
    l.map (fun p => if p.1 == k then (p.1, p.2 ++ [v]) else p)
  else l ++ [(k, [v])]

/-- `DigitalGenome.insert_gene` (`ts` stands for `time.time()`). -/
def insertGene (dg : DigitalGenome) (g : OperationalGene)
    (stem chromosome : String) (ts : ℚ) : DigitalGenome :=
  { dg with
      genes := dictInsertGene dg.genes g,
      stems := mapAppend dg.stems stem g.uid,
      chromosomes := mapAppend dg.chromosomes chromosome g.uid,
      modified_at := ts,
      evolution_history := dg.evolution_history ++
        [⟨ts, "insertion", g.uid, g.name, stem, chromosome⟩] }

/-- `DigitalGenome.get_gene`. -/
def getGene (dg : DigitalGenome) (uid : String) : Option OperationalGene :=
  dg.genes.find? (fun g => g.uid == uid)

-- ============================================================
-- find_genes_by_context (digital_genome_core.py)
-- ============================================================

/-- The relevance computed by `find_genes_by_context`: +3 if the lowered query
is a substring of the lowered name, +2 if of the lowered purpose, +1 for each
metadata value whose lowered string form contains it. -/
def relevanceOf (q : String) (g : OperationalGene) : Nat :=
  (if strHas (strLower q) (strLower g.name) then 3 else 0)
  + (if strHas (strLower q) (strLower g.purpose) then 2 else 0)
  + (g.metadata.filter (fun kv => strHas (strLower q) (strLower kv.2))).length

/-- Stable descending insertion by relevance: the inserted gene goes before
the first gene of relevance ≤ its own (so an earlier-iterated gene stays
before later genes of equal relevance, matching Python's stable `sort` with
`reverse=True`). -/
def relInsert (q : String) (g : OperationalGene) :
    List OperationalGene → List OperationalGene
  | [] => [g]
  | h :: t =>
    if relevanceOf q h ≤ relevanceOf q g then g :: h :: t
    else h :: relInsert q g t

/-- Stable sort by relevance descending. -/
def relSort (q : String) : List OperationalGene → List OperationalGene
  | [] => []
  | g :: t => relInsert q g (relSort q t)

/-- `DigitalGenome.find_genes_by_context`: keep the genes of positive
relevance, in a stable relevance-descending order. -/
def findGenesByContext (dg : DigitalGenome) (q : String) :
    List OperationalGene :=
  relSort q (dg.genes.filter (fun g => 0 < relevanceOf q g))

/-- Definition following the spec's words, for comparison with the code's
`relevanceOf`: relevance = 3×(word overlap with the name) + 2×(word overlap
with the purpose) + 1×(word overlap with any metadata value). -/
def specRelevance (q : String) (g : OperationalGene) : Nat :=
  3 * wordOverlap q g.name + 2 * wordOverlap q g.purpose
  + (g.metadata.map (fun kv => wordOverlap q kv.2)).sum

-- ============================================================
-- Serialization (to_dict / from_dict, digital_genome_core.py)
-- ============================================================

/-- The dictionary produced by `PraxeologicalCodon.to_dict` (enums rendered
as strings, the derived `uid` included). -/
structure CodonDoc where
  uid : String
  entity_id : String
  action_id : String
  target_state_id : String
  parameters : List (String × String)
  preconditions : List String
  postconditions : List String
  safety_level : String
  context : List (String × String)
deriving DecidableEq, Repr

/-- The dictionary produced by `OperationalGene.to_dict`. -/
structure GeneDoc where
  uid : String
  name : String
  purpose : String
  version : String
  status : String
  codons : List CodonDoc
  activation_conditions : List String
  postconditions : List String
  exception_handlers : List (String × String)
  evaluation_metrics : List String
  metadata : List (String × String)
  fitness_scores : List (String × ℚ)
  parent_genes : List String
  created_at : ℚ
  modified_at : ℚ
deriving DecidableEq, Repr

/-- The dictionary produced by `DigitalGenome.to_dict` (`genes` keyed by uid,
in insertion order). -/
structure GenomeDoc where
  genome_id : String
  name : String
  genes : List (String × GeneDoc)
  stems : List (String × List String)
  chromosomes : List (String × List String)
  evolution_history : List EvolutionEvent
  entity_registry : List (String × RegistryEntry)
  action_registry : List (String × RegistryEntry)
  state_registry : List (String × RegistryEntry)
  created_at : ℚ
  modified_at : ℚ
deriving DecidableEq, Repr

/-- `PraxeologicalCodon.to_dict`. -/
def codonToDict (c : PraxeologicalCodon) : CodonDoc :=
  { uid := c.uid,
    entity_id := c.entity_id,
    action_id := c.action_id,
    target_state_id := c.target_state_id,
    parameters := c.parameters,
    preconditions := c.preconditions,
    postconditions := c.postconditions,
    safety_level := c.safety_level.toStr,
    context := c.context }

/-- `PraxeologicalCodon.from_dict`; fails (Python raises) when the safety
level string is not a member of the enum.  The serialized `uid` is ignored,
as in the source. -/
def codonFromDict (d : CodonDoc) : Option PraxeologicalCodon := do
  let lvl ← SafetyLevel.ofStr d.safety_level
  pure { entity_id := d.entity_id,
         action_id := d.action_id,
         target_state_id := d.target_state_id,
         parameters := d.parameters,
         preconditions := d.preconditions,
         postconditions := d.postconditions,
         safety_level := lvl,
         context := d.context }

/-- `OperationalGene.to_dict`. -/
def geneToDict (g : OperationalGene) : GeneDoc :=
  { uid := g.uid,
    name := g.name,
    purpose := g.purpose,
    version := g.version,
    status := g.status.toStr,
    codons := g.codons.map codonToDict,
    activation_conditions := g.activation_conditions,
    postconditions := g.postconditions,
    exception_handlers := g.exception_handlers,
    evaluation_metrics := g.evaluation_metrics,
    metadata := g.metadata,
    fitness_scores := g.fitness_scores,
    parent_genes := g.parent_genes,
    created_at := g.created_at,
    modified_at := g.modified_at }

/-- `OperationalGene.from_dict`. -/
def geneFromDict (d : GeneDoc) : Option OperationalGene := do
  let st ← GeneStatus.ofStr d.status
  let cs ← listMapOption codonFromDict d.codons
  pure { uid := d.uid,
         name := d.name,
         purpose := d.purpose,
         version := d.version,
         status := st,
         codons := cs,
         activation_conditions := d.activation_conditions,
         postconditions := d.postconditions,
         exception_handlers := d.exception_handlers,
         evaluation_metrics := d.evaluation_metrics,
         metadata := d.metadata,
         fitness_scores := d.fitness_scores,
         parent_genes := d.parent_genes,
         created_at := d.created_at,
         modified_at := d.modified_at }

/-- `DigitalGenome.to_dict`. -/
def genomeToDict (dg : DigitalGenome) : GenomeDoc :=
  { genome_id := dg.genome_id,
    name := dg.name,
    genes := dg.genes.map (fun g => (g.uid, geneToDict g)),
    stems := dg.stems,
    chromosomes := dg.chromosomes,
    evolution_history := dg.evolution_history,
    entity_registry := dg.entity_registry,
    action_registry := dg.action_registry,
    state_registry := dg.state_registry,
    created_at := dg.created_at,
    modified_at := dg.modified_at }

/-- `DigitalGenome.from_dict`: rebuilds the gene table by dict assignment
keyed by each deserialized gene's uid, then restores the remaining fields. -/
def genomeFromDict (d : GenomeDoc) : Option DigitalGenome := do
  let gs ← listMapOption (fun p => geneFromDict p.2) d.genes
  pure { genome_id := d.genome_id,
         name := d.name,
         genes := gs.foldl dictInsertGene [],
         stems := d.stems,
         chromosomes := d.chromosomes,
         evolution_history := d.evolution_history,
         entity_registry := d.entity_registry,
         action_registry := d.action_registry,
         state_registry := d.state_registry,
         created_at := d.created_at,
         modified_at := d.modified_at }

-- ============================================================
-- ComputationalRibosome (digital_genome_core.py)
-- ============================================================

/-- `ExecutionStep` (the mutable `output`, `duration_ms` and `error` fields
are produced during execution and modelled in the execution outcome). -/
structure ExecutionStep where
  order : Nat
  codon : PraxeologicalCodon
  status : ExecutionResult := .success
deriving DecidableEq, Repr

/-- `ExecutionPlan` (`created_at` elided; estimated duration in ms). -/
structure ExecutionPlan where
  gene_uid : String
  gene_name : String
  steps : List ExecutionStep
  total_steps : Nat
  safety_level : SafetyLevel
  estimated_duration_ms : ℚ
deriving DecidableEq, Repr

/-- Ribosome state: the genome reference plus the translation cache
(`execution_history` is append-only and not consulted; elided). -/
structure Ribosome where
  genome : DigitalGenome
  translation_cache : List (String × ExecutionPlan) := []
deriving DecidableEq, Repr

/-- The plan built by `translate_gene` for an active gene: one execution
step per codon, in original order, duration estimated at 100ms per step. -/
def buildPlan (gene_uid : String) (g : OperationalGene) : ExecutionPlan :=
  let steps := g.codons.enum.map
    (fun ic => { order := ic.1 + 1, codon := ic.2 : ExecutionStep })
  { gene_uid := gene_uid,
    gene_name := g.name,
    steps := steps,
    total_steps := steps.length,
    safety_level := g.safetyLevel,
    estimated_duration_ms := (steps.length : ℚ) * 100 }

/-- `ComputationalRibosome.translate_gene`: returns the cached plan when
present; otherwise raises `ValueError` (modelled as `.error`) when the gene
is missing or not active, and otherwise builds one step per codon, in order,
and caches the plan. -/
def translateGene (r : Ribosome) (gene_uid : String) :
    Except String (ExecutionPlan × Ribosome) :=
  match alistGet r.translation_cache gene_uid with
  | some plan => .ok (plan, r)
  | none =>
    match getGene r.genome gene_uid with
    | none => .error ("Gene not found: " ++ gene_uid)
    | some g =>
      if g.status ≠ GeneStatus.active then
        .error ("Gene is not active: " ++ g.name ++ " (status: "
                ++ g.status.toStr ++ ")")
      else
        .ok (buildPlan gene_uid g,
             { r with translation_cache :=
                 r.translation_cache ++ [(gene_uid, buildPlan gene_uid g)] })

/-- The observable outcome fields of `execute_plan`'s result dict. -/
structure ExecOutcome where
  steps_executed : Nat
  steps_successful : Nat
  steps_failed : Nat
  overall_status : ExecutionResult
deriving DecidableEq, Repr

/-- The step loop of `execute_plan`, parameterized by the collaborator
hooks: `pre` models `_check_preconditions` (the source stub returns `True`
for every codon) and `err` models an exception escaping the step body
(`_execute_codon` in the source never raises; a real execution backend can).
Returns (steps executed, successes, failures, overall status as left by the
loop, i.e. `SUCCESS` unless the critical-failure break fired). -/
def executeSteps (pre : PraxeologicalCodon → Bool)
    (err : PraxeologicalCodon → Option String) (dryRun : Bool) :
    List ExecutionStep → Nat × Nat × Nat × ExecutionResult
  | [] => (0, 0, 0, .success)
  | s :: rest =>
    let stepStatus : ExecutionResult :=
      if pre s.codon = false then .aborted
      else match (if dryRun then none else err s.codon) with
        | some _ => .failure
        | none => .success
    let okInc : Nat := if stepStatus = .success then 1 else 0
    let failInc : Nat := if stepStatus = .success then 0 else 1
    if stepStatus = .failure ∧ s.codon.safety_level = .critical then
      (1, okInc, failInc, .aborted)
    else
      let (ex, ok, fl, ov) := executeSteps pre err dryRun rest
      (ex + 1, ok + okInc, fl + failInc, ov)

/-- `ComputationalRibosome.execute_plan`: runs the step loop, then
recomputes the overall status from the success/failure counters. -/
def executePlan (pre : PraxeologicalCodon → Bool)
    (err : PraxeologicalCodon → Option String)
    (plan : ExecutionPlan) (dryRun : Bool) : ExecOutcome :=
  let (ex, ok, fl, ov) := executeSteps pre err dryRun plan.steps
  let final : ExecutionResult :=
    if 0 < fl then (if 0 < ok then .mixed else .failure) else ov
  { steps_executed := ex,
    steps_successful := ok,
    steps_failed := fl,
    overall_status := final }

/-- The always-true precondition stub wired in the source. -/
def stubPre : PraxeologicalCodon → Bool := fun _ => true

-- ============================================================
-- Cognitive core (cognitive_core.py): evaluation context and results
-- ============================================================

/-- A value of the evaluation context dict: the motors read either string
values or the list value stored under the `"agents"` key. -/
inductive CtxValue
  | vStr (s : String)
  | vList (l : List String)
deriving DecidableEq, Repr

/-- The context dict consumed by the evaluators. -/
def EvalContext : Type := List (String × CtxValue)

/-- The intent dict; only its `"purpose"` entry is read. -/
structure IntentSpec where
  purpose : Option String := none
deriving DecidableEq, Repr

/-- `MotorEvaluation` (cognitive_core.py); the `analysis` bag and the
wall-clock `timestamp` are elided, the score-determining fields are kept. -/
structure MotorEvaluation where
  motor_name : String
  score : ℚ
  is_veto : Bool
  veto_reason : Option String
  confidence : ℚ
deriving DecidableEq, Repr

/-- `MotorEvaluation.is_absolute_veto`: zero score or explicit veto. -/
def MotorEvaluation.isAbsoluteVeto (e : MotorEvaluation) : Bool :=
  e.score == 0 || e.is_veto

-- ============================================================
-- Praxeological motor
-- ============================================================

/-- `PraxeologicalMotor._calculate_intent_alignment`: word overlap between
the lowered intent purpose and gene purpose; neutral 0.5 with no intent
words; doubled ratio capped at 1 and floored at 0.1. -/
def intentAlignment (g : OperationalGene) (it : IntentSpec) : ℚ :=
  let iw := wordSet (it.purpose.getD "")
  let gw := wordSet g.purpose
  if iw = [] then 1/2
  else
    let overlap : ℚ := ((iw.filter (fun w => w ∈ gw)).length : ℚ)
    max (1/10) (min 1 (overlap / (iw.length : ℚ) * 2))

/-- The leading keyword of an activation condition
(`condition.split()[0].lower() if condition else ""`). -/
def condKey (c : String) : String :=
  if c = "" then "" else strLower ((tokensOf c).headD "")

/-- Per-condition credit of `_check_preconditions`: 1 if the leading keyword
matches a lowered context key, else 0.5 partial credit. -/
def condCredit (keys : List String) (c : String) : ℚ :=
  if condKey c ∈ keys then 1 else 1/2

/-- `PraxeologicalMotor._check_preconditions`. -/
def preconditionSatisfaction (g : OperationalGene) (ctx : EvalContext) : ℚ :=
  if g.activation_conditions = [] then 1
  else
    let keys := ctx.map (fun p => strLower p.1)
    (g.activation_conditions.map (condCredit keys)).sum
      / (g.activation_conditions.length : ℚ)

/-- The ×0.5 penalty of a codon missing an entity or action identifier. -/
def codonPenalty (c : PraxeologicalCodon) : ℚ :=
  if c.entity_id = "" ∨ c.action_id = "" then 1/2 else 1

/-- The ×0.9 penalty of an adjacent pair whose postconditions do not
intersect the next codon's preconditions. -/
def chainPenalty (prev cur : PraxeologicalCodon) : ℚ :=
  if prev.postconditions.filter (fun p => p ∈ cur.preconditions) = []
  then 9/10 else 1

/-- Loop body of `_assess_logical_coherence` over the tail of the codon
list, threading the previous codon. -/
def coherenceGo (prev : PraxeologicalCodon) : List PraxeologicalCodon → ℚ
  | [] => 1
  | c :: cs => codonPenalty c * chainPenalty prev c * coherenceGo c cs

/-- `PraxeologicalMotor._assess_logical_coherence`: 0 with no codons, else
the product of the per-codon and per-adjacent-pair penalties. -/
def logicalCoherence (g : OperationalGene) : ℚ :=
  match g.codons with
  | [] => 0
  | c :: cs => codonPenalty c * coherenceGo c cs

/-- `PraxeologicalMotor.evaluate`. -/
def praxEvaluate (g : OperationalGene) (ctx : EvalContext) (it : IntentSpec) :
    MotorEvaluation :=
  let a := intentAlignment g it
  let p := preconditionSatisfaction g ctx
  let c := logicalCoherence g
  if a < 1/10 then
    ⟨"Praxeological", 0, true, some "Action contradicts stated intention", 17/20⟩
  else if c < 1/10 then
    ⟨"Praxeological", 0, true, some "Action cannot logically achieve its goal", 17/20⟩
  else if p = 0 then
    ⟨"Praxeological", 0, true, some "Preconditions cannot be satisfied", 17/20⟩
  else
    ⟨"Praxeological", a * p * c, false, none, 17/20⟩

-- ============================================================
-- Nash motor
-- ============================================================

/-- The `"agents"` entry of the context, when it holds a list. -/
def agentsOf (ctx : EvalContext) : List String :=
  match alistGet ctx "agents" with
  | some (.vList l) => l
  | _ => []

/-- `NashMotor._identify_agents`: the set of the metadata executor/target,
every codon entity and the context agents (Python builds a set; only the
count and emptiness of the result are consumed downstream). -/
def identifyAgents (g : OperationalGene) (ctx : EvalContext) : List String :=
  ((alistGet g.metadata "executor").toList
    ++ (alistGet g.metadata "target").toList
    ++ g.codons.map (fun c => c.entity_id)
    ++ agentsOf ctx).dedup

/-- `NashMotor._calculate_equilibrium_proximity`: 1.0 for at most one agent;
otherwise 0.8, +0.1 when a codon action mentions response/feedback, capped
at 1. -/
def equilibriumProximity (g : OperationalGene) (agents : List String) : ℚ :=
  if agents.length ≤ 1 then 1
  else
    let bd : ℚ :=
      if g.codons.any (fun c =>
          strHas "response" (strLower c.action_id)
          || strHas "feedback" (strLower c.action_id))
      then 8/10 + 1/10 else 8/10
    min 1 bd

/-- `NashMotor._assess_stability`: 0.7 + min(0.3, handler-count/agent-count
× 0.3). -/
def nashStability (g : OperationalGene) (agents : List String) : ℚ :=
  7/10 + min (3/10) ((g.exception_handlers.length : ℚ)
                      / max (agents.length : ℚ) 1 * (3/10))

/-- `NashMotor._assess_multi_agent_coherence`: 1.0 for at most one agent;
otherwise 0.8 (+0.1 with postconditions, +0.1 with evaluation metrics),
capped at 1. -/
def multiAgentCoherence (g : OperationalGene) (agents : List String) : ℚ :=
  if agents.length ≤ 1 then 1
  else
    min 1 (8/10 + (if g.postconditions ≠ [] then 1/10 else 0)
           + (if g.evaluation_metrics ≠ [] then 1/10 else 0))

/-- `NashMotor.evaluate`. -/
def nashEvaluate (g : OperationalGene) (ctx : EvalContext) (_it : IntentSpec) :
    MotorEvaluation :=
  let agents := identifyAgents g ctx
  let ep := equilibriumProximity g agents
  let st := nashStability g agents
  let co := multiAgentCoherence g agents
  if st < 1/10 then
    ⟨"Nash", 0, true, some "Action creates destructive feedback loops", 4/5⟩
  else if 1 < agents.length ∧ ep < 1/10 then
    ⟨"Nash", 0, true, some "No stable equilibrium exists", 4/5⟩
  else
    ⟨"Nash", ep * st * co, false, none, 4/5⟩

-- ============================================================
-- Chaotic motor
-- ============================================================

/-- `ChaoticMotor._estimate_sensitivity`: 0.2 base, +0.05 per codon, +0.2
when the gene level is critical, +0.15 with no exception handlers, capped
at 1. -/
def estimateSensitivity (g : OperationalGene) : ℚ :=
  min 1 (1/5 + (g.codons.length : ℚ) * (1/20)
         + (if g.safetyLevel = .critical then 1/5 else 0)
         + (if g.exception_handlers = [] then 3/20 else 0))

/-- The sensitivity-complement factor `1 - NormalizedLyapunov`. -/
def sensitivityFactor (g : OperationalGene) : ℚ :=
  1 - estimateSensitivity g

/-- Per-condition basin narrowing: 0.1 for a strict numeric-threshold
condition (containing `>`, `<` or `=`), 0.05 for a qualitative one. -/
def basinNarrowing (c : String) : ℚ :=
  if strHas ">" c || strHas "<" c || strHas "=" c then 1/10 else 1/20

/-- `ChaoticMotor._estimate_basin_size`: 0.8 minus the narrowing of each
activation condition, floored at 0.1. -/
def estimateBasinSize (g : OperationalGene) : ℚ :=
  max (1/10) (4/5 - (g.activation_conditions.map basinNarrowing).sum)

/-- `ChaoticMotor._assess_perturbation_tolerance`: 0.7, +0.05 per handler,
+0.1 with postconditions, capped at 1. -/
def perturbationTolerance (g : OperationalGene) : ℚ :=
  min 1 (7/10 + (g.exception_handlers.length : ℚ) * (1/20)
         + (if g.postconditions ≠ [] then 1/10 else 0))

/-- One entry of `_identify_failure_modes`' result. -/
structure FailureMode where
  mode_type : String
  catastrophic : Bool
deriving DecidableEq, Repr

/-- `ChaoticMotor._identify_failure_modes`: one catastrophic mode per
critical codon, plus a non-catastrophic unhandled-exception mode when the
gene has no exception handlers. -/
def identifyFailureModes (g : OperationalGene) : List FailureMode :=
  (g.codons.filterMap (fun c =>
     if c.safety_level = .critical
     then some ⟨"critical_failure", true⟩ else none))
  ++ (if g.exception_handlers = []
      then [⟨"unhandled_exception", false⟩] else [])

/-- `ChaoticMotor.evaluate`. -/
def chaoticEvaluate (g : OperationalGene) (_ctx : EvalContext)
    (_it : IntentSpec) : MotorEvaluation :=
  let sf := sensitivityFactor g
  let basin := estimateBasinSize g
  let pt := perturbationTolerance g
  if (identifyFailureModes g).any (fun fm => fm.catastrophic) then
    ⟨"Chaotic", 0, true, some "Failure mode includes irreversible catastrophe", 3/4⟩
  else if sf < 1/10 then
    ⟨"Chaotic", 0, true, some "Extreme sensitivity to initial conditions", 3/4⟩
  else if basin < 1/10 then
    ⟨"Chaotic", 0, true, some "Basin of attraction too small for real-world noise", 3/4⟩
  else
    ⟨"Chaotic", sf * basin * pt, false, none, 3/4⟩

-- ============================================================
-- Meristic meta-motor
-- ============================================================

/-- One pattern record of `_detect_patterns`. -/
structure DetectedPattern where
  pat_name : String
  pat_type : String
  universality : ℚ
deriving DecidableEq, Repr

/-- `MeristicMetaMotor._detect_patterns`: sequential execution (≥2 codons),
defensive execution (handlers), goal-directed (postconditions), feedback
loop (a repeated codon entity). -/
def detectPatterns (g : OperationalGene) : List DetectedPattern :=
  (if 2 ≤ g.codons.length
   then [⟨"sequential_execution", "structural", 9/10⟩] else [])
  ++ (if g.exception_handlers ≠ []
      then [⟨"defensive_execution", "safety", 17/20⟩] else [])
  ++ (if g.postconditions ≠ []
      then [⟨"goal_directed", "intentional", 19/20⟩] else [])
  ++ (if (g.codons.map (fun c => c.entity_id)).length
        ≠ (g.codons.map (fun c => c.entity_id)).dedup.length
      then [⟨"feedback_loop", "control", 4/5⟩] else [])

/-- `MeristicMetaMotor._score_pattern_universality`: 0.5 with no patterns,
else the average universality. -/
def patternUniversality (ps : List DetectedPattern) : ℚ :=
  if ps = [] then 1/2
  else (ps.map (fun p => p.universality)).sum / (ps.length : ℚ)

/-- Micro sub-score of `_analyze_across_scales`: 1.0 minus 0.2 per codon
missing an entity or action, floored at 0. -/
def microScore (g : OperationalGene) : ℚ :=
  max 0 (1 - (1/5) *
    ((g.codons.filter (fun c => c.entity_id = "" ∨ c.action_id = "")).length : ℚ))

/-- Meso sub-score: 0.8 with postconditions, else 0.6. -/
def mesoScore (g : OperationalGene) : ℚ :=
  if g.postconditions ≠ [] then 4/5 else 3/5

/-- Macro sub-score: 0.7, +0.1 with a truthy `domain` metadata entry. -/
def globalScaleScore (g : OperationalGene) : ℚ :=
  7/10 + (match alistGet g.metadata "domain" with
          | some v => if v ≠ "" then 1/10 else 0
          | none => 0)

/-- Overall scale coherence: weights 0.3/0.4/0.3 over micro/meso/macro. -/
def scaleCoherence (g : OperationalGene) : ℚ :=
  (3/10) * microScore g + (4/10) * mesoScore g + (3/10) * globalScaleScore g

/-- One suggestion record of `_imagine_improvements`. -/
structure Improvement where
  imp_type : String
  expected_gain : ℚ
  confidence : ℚ
deriving DecidableEq, Repr

/-- `MeristicMetaMotor._imagine_improvements`. -/
def imagineImprovements (g : OperationalGene) : List Improvement :=
  (if 2 < g.codons.length then [⟨"variant", 3/20, 3/5⟩] else [])
  ++ (if 3 < g.exception_handlers.length then [⟨"anti_gene", 1/4, 2/5⟩] else [])
  ++ (if g.evaluation_metrics = [] then [⟨"hypothesis", 1/10, 7/10⟩] else [])

/-- The best expected gain among the imagined improvements (all gains are
positive, so folding `max` from 0 is the Python `max`). -/
def bestGain (l : List Improvement) : ℚ :=
  (l.map (fun i => i.expected_gain)).foldr max 0

/-- Proximity-to-Form factor: 1 minus min(0.3, best gain × 0.5), with no
penalty when nothing can be imagined. -/
def potentialScore (g : OperationalGene) : ℚ :=
  let imps := imagineImprovements g
  1 - (if imps = [] then 0 else min (3/10) (bestGain imps * (1/2)))

/-- `MeristicMetaMotor.evaluate`. -/
def meristicEvaluate (g : OperationalGene) (_ctx : EvalContext)
    (_it : IntentSpec) : MotorEvaluation :=
  let pu := patternUniversality (detectPatterns g)
  let sc := scaleCoherence g
  let pot := potentialScore g
  if pu < 1/10 then
    ⟨"Meristic", 0, true, some "Action violates fundamental patterns", 7/10⟩
  else
    ⟨"Meristic", pu * sc * pot, false, none, 7/10⟩

-- ============================================================
-- Evaluator state (evaluation_history) as explicit state passing
-- ============================================================

/-- One motor call with its `self.evaluation_history` state made explicit:
the source's `evaluate` computes the evaluation from the inputs alone and
then `_record_evaluation` appends it to the history. -/
def motorStep (motorEval : OperationalGene → EvalContext → IntentSpec →
    MotorEvaluation) (hist : List MotorEvaluation) (g : OperationalGene)
    (ctx : EvalContext) (it : IntentSpec) :
    List MotorEvaluation × MotorEvaluation :=
  let e := motorEval g ctx it
  (hist ++ [e], e)

-- ============================================================
-- ParallelMotorOrchestrator (cognitive_core.py)
-- ============================================================

/-- `CraftPerformanceResult` (timestamp elided). -/
structure CraftPerformanceResult where
  gene_uid : String
  evaluations : List (String × MotorEvaluation)
  craft_performance : ℚ
  is_vetoed : Bool
  veto_motor : Option String
  veto_reason : Option String
deriving DecidableEq, Repr

/-- Loop body of the orchestrator's aggregation: multiply the score in, and
on the first absolute veto force the product to 0 and record the motor. -/
def aggStep (acc : ℚ × Bool × Option String × Option String)
    (ne : String × MotorEvaluation) : ℚ × Bool × Option String × Option String :=
  let cp := acc.1 * ne.2.score
  if ne.2.isAbsoluteVeto = true ∧ acc.2.1 = false then
    (0, true, some ne.1, ne.2.veto_reason)
  else
    (cp, acc.2.1, acc.2.2.1, acc.2.2.2)

/-- Modelled from the spec: the cached score fields of the v2
`OperationalGene` (the `digital_genome_core` revision that `cognitive_core`
and `__init__.py` import from is absent from `src/`; its v1 replacement has
no such fields).  Spec §3 lists "cached per-evaluator scores, cached
aggregate score, cached veto flag + source + reason"; the veto reason string
is not reconstructible from the four scores the orchestrator passes and is
omitted. -/
structure GeneScoreCache where
  motor_scores : List (String × ℚ) := []
  aggregate_score : Option ℚ := none
  vetoed : Bool := false
  veto_source : Option String := none
deriving DecidableEq, Repr

/-- A gene together with its v2 cached-score fields. -/
structure ScoredGene where
  base : OperationalGene
  cache : GeneScoreCache := {}
deriving DecidableEq, Repr

/-- Modelled from the spec: `OperationalGene.record_motor_scores` of the v2
genome core, called by the orchestrator with the four motor scores.  Per
spec §4.3 it "writes the four scores, aggregate, and veto metadata back onto
the template": it caches the scores, their product as the aggregate, and the
veto flag and source derived from a zero score (zero is exactly the absolute
veto, and the fixed priority order is praxeological > nash > chaotic >
meristic). -/
def record_motor_scores (sg : ScoredGene) (p n c m : ℚ) : ScoredGene :=
  { sg with cache :=
      { motor_scores := [("Praxeological", p), ("Nash", n),
                         ("Chaotic", c), ("Meristic", m)],
        aggregate_score := some (p * n * c * m),
        vetoed := p == 0 || n == 0 || c == 0 || m == 0,
        veto_source :=
          if p = 0 then some "Praxeological"
          else if n = 0 then some "Nash"
          else if c = 0 then some "Chaotic"
          else if m = 0 then some "Meristic"
          else none } }

/-- `ParallelMotorOrchestrator.evaluate_gene`: runs the four motors,
aggregates the product with the veto override, and records the scores on the
gene.  Returns the result together with the updated gene. -/
def evaluateGene (sg : ScoredGene) (ctx : EvalContext) (it : IntentSpec) :
    CraftPerformanceResult × ScoredGene :=
  let eP := praxEvaluate sg.base ctx it
  let eN := nashEvaluate sg.base ctx it
  let eC := chaoticEvaluate sg.base ctx it
  let eM := meristicEvaluate sg.base ctx it
  let evals := [("Praxeological", eP), ("Nash", eN),
                ("Chaotic", eC), ("Meristic", eM)]
  let agg := evals.foldl aggStep (1, false, none, none)
  (⟨sg.base.uid, evals, agg.1, agg.2.1, agg.2.2.1, agg.2.2.2⟩,
   record_motor_scores sg eP.score eN.score eC.score eM.score)

-- ============================================================
-- Concrete instances used by counterexamples and witnesses
-- ============================================================

/-- A Boolean success test for `Except` results. -/
def exceptOk {ε α : Type} : Except ε α → Bool
  | .ok _ => true
  | .error _ => false

/-- A critical-tier codon whose (parameterized) execution raises. -/
def codonCritical : PraxeologicalCodon :=
  { entity_id := "pump-401", action_id := "stop",
    target_state_id := "stopped", safety_level := .critical }

/-- A routine info-tier codon. -/
def codonRoutine : PraxeologicalCodon :=
  { entity_id := "valve-302", action_id := "close",
    target_state_id := "closed" }

/-- A two-step plan whose first step is critical. -/
def planC1 : ExecutionPlan :=
  { gene_uid := "gene:shutdown", gene_name := "shutdown",
    steps := [{ order := 1, codon := codonCritical },
              { order := 2, codon := codonRoutine }],
    total_steps := 2, safety_level := .critical,
    estimated_duration_ms := 200 }

/-- An execution backend in which acting on a critical codon raises. -/
def errC1 : PraxeologicalCodon → Option String :=
  fun c => if c.safety_level = .critical then some "actuator fault" else none

/-- First inserted version of the duplicate-identifier template. -/
def geneC2a : OperationalGene :=
  { uid := "gene:cool", name := "cooling restart",
    purpose := "restart cooling", metadata := [("a", "1")] }

/-- Second inserted version: same identifier, different metadata. -/
def geneC2b : OperationalGene :=
  { uid := "gene:cool", name := "cooling restart",
    purpose := "restart cooling", metadata := [("b", "2")] }

/-- The store after inserting both versions of the template. -/
def genomeC2 : DigitalGenome :=
  insertGene (insertGene { genome_id := "G2", name := "store2" }
      geneC2a "s" "c" 1)
    geneC2b "s" "c" 2

/-- A gene with one critical codon offset by an exception handler;
sensitivity complement 0.55 and basin size 0.8 are both well above 0.1. -/
def geneC5 : OperationalGene :=
  { uid := "gene:guarded", name := "guarded shutdown",
    purpose := "stop pump safely", status := .active,
    codons := [codonCritical],
    exception_handlers := [("valve_stuck", "manual_intervention")] }

/-- A gene with a critical codon and no handlers (vetoed by robustness). -/
def geneC5w : OperationalGene :=
  { uid := "gene:raw", name := "unguarded action",
    purpose := "act without protection", status := .active,
    codons := [codonCritical] }

/-- A small well-formed gene for the evaluator-state counterexample. -/
def geneC6 : OperationalGene :=
  { uid := "gene:inspect", name := "inspection",
    purpose := "inspect pump", status := .active,
    codons := [{ entity_id := "pump-401", action_id := "inspect",
                 target_state_id := "checked" }] }

/-- An active two-codon gene for the translation claims. -/
def geneC7 : OperationalGene :=
  { uid := "gene:routine", name := "routine inspection",
    purpose := "inspect equipment", status := .active,
    codons := [codonRoutine,
               { entity_id := "pump-401", action_id := "inspect",
                 target_state_id := "checked" }] }

/-- The store holding `geneC7`. -/
def genomeC7 : DigitalGenome :=
  { genome_id := "G7", name := "store7", genes := [geneC7] }

/-- A fresh ribosome over `genomeC7`. -/
def riboC7 : Ribosome := { genome := genomeC7 }

/-- The ribosome after a first successful translation (plan cached). -/
def riboC7cached : Ribosome :=
  match translateGene riboC7 "gene:routine" with
  | .ok pr => pr.2
  | .error _ => riboC7

/-- The same ribosome after the gene has been deprecated in the store:
the cache still holds the stale plan. -/
def riboC7stale : Ribosome :=
  { riboC7cached with genome :=
      { genomeC7 with genes := [geneC7.deprecate "obsolete" 5] } }

/-- A gene whose name contains the query `"shut"` only as a substring of
`"shutdown"`, never as a whole word. -/
def geneC8 : OperationalGene :=
  { uid := "gene:pump", name := "pump shutdown", purpose := "halt" }

/-- The store holding `geneC8`. -/
def genomeC8 : DigitalGenome :=
  { genome_id := "G8", name := "store8", genes := [geneC8] }

/-- A populated store with two genes carrying cached fitness scores. -/
def genomeC9 : DigitalGenome :=
  { genome_id := "G9", name := "store9",
    genes := [{ geneC7 with fitness_scores := [("ctx1", 7/10)] },
              { geneC5 with fitness_scores := [("ctx1", 1/2), ("ctx2", 9/10)] }],
    stems := [("safety", ["gene:guarded"]), ("default", ["gene:routine"])],
    chromosomes := [("primary", ["gene:routine", "gene:guarded"])] }

/-- A single-agent gene for the Nash-motor witness. -/
def geneC10 : OperationalGene :=
  { uid := "gene:solo", name := "solo action", purpose := "act alone",
    status := .active,
    codons := [{ entity_id := "pump-401", action_id := "measure",
                 target_state_id := "measured" }],
    metadata := [("executor", "pump-401"), ("target", "pump-401")] }

-- ============================================================
-- Theorems
-- ============================================================

/-- C1: the specified status lattice says a critical-tier step failure makes
the overall status ABORTED, overriding PARTIAL and FAILURE.  In the source,
the loop does set the overall status to ABORTED and break on a critical
failure, but the post-loop classification unconditionally recomputes the
status from the success/failure counters whenever any step failed — which is
always the case after the short-circuit — so the returned status is FAILURE
(or PARTIAL), never ABORTED.  On a two-step plan whose first (critical) step
raises: the loop stops after one step with status ABORTED, and the function
returns FAILURE. -/
theorem c1_critical_failure_clobbered :
    (executeSteps stubPre errC1 false planC1.steps).2.2.2
        = ExecutionResult.aborted
    ∧ executePlan stubPre errC1 planC1 false =
        { steps_executed := 1, steps_successful := 0, steps_failed := 1,
          overall_status := ExecutionResult.failure }
    ∧ planC1.total_steps = 2 := by
  refine ⟨by decide, by decide, by decide⟩

/-- C2 counterexample: inserting a second template with an already-present
identifier replaces the stored record wholesale — the incoming metadata is
not merged into the existing record (the old key `"a"` is gone), and the
source `OperationalGene` has no experience counter to increment. -/
theorem c2_counterexample :
    genomeC2.genes.length = 1
    ∧ getGene genomeC2 "gene:cool" = some geneC2b
    ∧ alistGet geneC2b.metadata "a" = none := by
  refine ⟨by decide, by decide, by decide⟩

/-- Replacing the entry whose key matches in a gene table makes the lookup
return the replacement. -/
theorem find?_dictReplace (l : List OperationalGene) (g : OperationalGene)
    (h : l.any (fun x => x.uid == g.uid) = true) :
    (l.map (fun x => if x.uid == g.uid then g else x)).find?
      (fun x => x.uid == g.uid) = some g := by
  induction l with
  | nil => simp at h
  | cons x t ih =>
    by_cases hx : x.uid = g.uid
    · simp [hx]
    · have ht : t.any (fun y => y.uid == g.uid) = true := by
        simpa [hx] using h
      simpa [hx] using ih ht

/-- The per-position key test is unchanged by the keyed replacement. -/
theorem countP_dictReplace (l : List OperationalGene) (g : OperationalGene) :
    (l.map (fun x => if x.uid == g.uid then g else x)).countP
      (fun x => x.uid == g.uid) = l.countP (fun x => x.uid == g.uid) := by
  rw [List.countP_map]
  apply List.countP_congr
  intro x _
  by_cases hx : x.uid = g.uid <;> simp [hx]

/-- With pairwise-distinct identifiers, the table holds exactly one record
for any identifier present in it. -/
theorem countP_uid_eq_one (l : List OperationalGene) (u : String)
    (hmem : l.any (fun x => x.uid == u) = true)
    (hnd : (l.map (fun x => x.uid)).Nodup) :
    l.countP (fun x => x.uid == u) = 1 := by
  have hc : l.countP (fun x => x.uid == u) = (l.map (fun x => x.uid)).count u := by
    rw [List.count, List.countP_map]
    rfl
  have hin : u ∈ l.map (fun x => x.uid) := by
    rcases List.any_eq_true.mp hmem with ⟨x, hx, hxe⟩
    exact List.mem_map.mpr ⟨x, hx, by simpa using hxe⟩
  have h1 : 1 ≤ (l.map (fun x => x.uid)).count u :=
    List.count_pos_iff.mpr hin
  have h2 : (l.map (fun x => x.uid)).count u ≤ 1 :=
    List.nodup_iff_count_le_one.mp hnd u
  omega

/-- C2 (amended): inserting a template whose identifier already exists in
the store replaces the stored record with the incoming one — no experience
counter is incremented and no metadata merge happens — and the template
table still holds exactly one record for that identifier (same table size;
lookup returns the incoming template; with the table's distinct-identifier
invariant, exactly one matching record). -/
theorem c2_amended (dg : DigitalGenome) (g : OperationalGene)
    (stem chromosome : String) (ts : ℚ)
    (h : dg.genes.any (fun x => x.uid == g.uid) = true) :
    (insertGene dg g stem chromosome ts).genes.length = dg.genes.length
    ∧ getGene (insertGene dg g stem chromosome ts) g.uid = some g
    ∧ ((dg.genes.map (fun x => x.uid)).Nodup →
        ((insertGene dg g stem chromosome ts).genes.filter
          (fun x => x.uid == g.uid)).length = 1) := by
  refine ⟨?_, ?_, ?_⟩
  · simp [insertGene, dictInsertGene, h]
  · simp only [insertGene, getGene, dictInsertGene, h, if_true]
    exact find?_dictReplace dg.genes g h
  · intro hnd
    simp only [insertGene, dictInsertGene, h, if_true]
    rw [← List.countP_eq_length_filter, countP_dictReplace]
    exact countP_uid_eq_one dg.genes g.uid h hnd

/-- C2 witness: the duplicate insertion of `geneC2b` satisfies the
recognition hypothesis, and the amended theorem applies. -/
theorem c2_amended_witness :
    (insertGene { genome_id := "G2", name := "store2" } geneC2a "s" "c" 1).genes.any
      (fun x => x.uid == geneC2b.uid) = true
    ∧ getGene genomeC2 geneC2b.uid = some geneC2b := by
  refine ⟨by decide, ?_⟩
  exact (c2_amended
    (insertGene { genome_id := "G2", name := "store2" } geneC2a "s" "c" 1)
    geneC2b "s" "c" 2 (by decide)).2.1

/-- C5 counterexample: a template whose only critical-tier unit is offset by
an exception handler, with sensitivity complement (0.55) and basin size
(0.8) both at least 0.1, is still vetoed by the robustness evaluator — the
source marks every critical codon as a catastrophic failure mode regardless
of handlers. -/
theorem c5_counterexample :
    geneC5.exception_handlers ≠ []
    ∧ 1/10 ≤ sensitivityFactor geneC5
    ∧ 1/10 ≤ estimateBasinSize geneC5
    ∧ (chaoticEvaluate geneC5 [] {}).is_veto = true := by
  refine ⟨by decide, ?_, ?_, ?_⟩
  · norm_num [sensitivityFactor, estimateSensitivity, geneC5,
      OperationalGene.safetyLevel, codonCritical]
  · norm_num [estimateBasinSize, geneC5]
  · simp [chaoticEvaluate, identifyFailureModes, geneC5, codonCritical]

/-- C6 counterexample: an evaluator call does not leave all reachable state
unchanged — `evaluate` ends by appending the evaluation to the motor's own
`evaluation_history`, so after one call the history is non-empty and after
two calls it has two entries. -/
theorem c6_counterexample :
    (motorStep praxEvaluate [] geneC6 [] {}).1 ≠ []
    ∧ (motorStep praxEvaluate
        (motorStep praxEvaluate [] geneC6 [] {}).1 geneC6 [] {}).1.length
        = 2 := by
  refine ⟨by simp [motorStep], by simp [motorStep]⟩

/-- C7 counterexample: `translate` does not fail on every non-active
template — the cache is consulted before the status check, so after a plan
is cached and the gene is then deprecated, a further `translate` succeeds
although the template's lifecycle status is not `active`. -/
theorem c7_counterexample :
    (getGene riboC7stale.genome "gene:routine").map (fun g => g.status)
      = some GeneStatus.deprecated
    ∧ exceptOk (translateGene riboC7stale "gene:routine") = true := by
  refine ⟨by decide, by decide⟩

/-- Appending a fresh cache entry makes its key found. -/
theorem alistGet_append_self {β : Type} (l : List (String × β)) (k : String)
    (v : β) (h : alistGet l k = none) :
    alistGet (l ++ [(k, v)]) k = some v := by
  have hf : l.find? (fun p => p.1 == k) = none := by
    unfold alistGet at h
    cases hfind : l.find? (fun p => p.1 == k) with
    | none => rfl
    | some p => rw [hfind] at h; simp at h
  unfold alistGet
  rw [List.find?_append, hf]
  simp

/-- C7 (amended): on a cache miss, `translate` fails with a state error
exactly when the template is missing or not active; on success it returns
one execution step per atomic unit, in the template's original order (orders
1..n), and a second call returns the identical plan as a cache hit.  (The
claim's unconditional failure iff is refuted by `c7_counterexample`: a
cached plan is returned without re-checking lifecycle status.) -/
theorem c7_amended (r : Ribosome) (uid : String)
    (hc : alistGet r.translation_cache uid = none) :
    ((∃ msg, translateGene r uid = .error msg) ↔
      (getGene r.genome uid = none
       ∨ ∃ g, getGene r.genome uid = some g ∧ g.status ≠ GeneStatus.active))
    ∧ (∀ plan r2, translateGene r uid = .ok (plan, r2) →
        (∃ g, getGene r.genome uid = some g ∧ g.status = GeneStatus.active
          ∧ plan.steps.map (fun s => s.codon) = g.codons
          ∧ plan.steps.map (fun s => s.order)
              = (List.range g.codons.length).map (fun i => i + 1)
          ∧ plan.total_steps = g.codons.length)
        ∧ translateGene r2 uid = .ok (plan, r2)) := by
  cases hg : getGene r.genome uid with
  | none =>
    have htr : translateGene r uid = .error ("Gene not found: " ++ uid) := by
      unfold translateGene
      rw [hc, hg]
    rw [htr]
    refine ⟨⟨fun _ => Or.inl rfl, fun _ => ⟨_, rfl⟩⟩, ?_⟩
    intro plan r2 hok
    exact absurd hok (by simp)
  | some g =>
    by_cases hst : g.status ≠ GeneStatus.active
    · have htr : translateGene r uid =
          .error ("Gene is not active: " ++ g.name ++ " (status: "
                  ++ g.status.toStr ++ ")") := by
        unfold translateGene
        rw [hc, hg]
        exact if_pos hst
      rw [htr]
      refine ⟨⟨fun _ => Or.inr ⟨g, rfl, hst⟩, fun _ => ⟨_, rfl⟩⟩, ?_⟩
      intro plan r2 hok
      exact absurd hok (by simp)
    · push_neg at hst
      have htr : translateGene r uid =
          .ok (buildPlan uid g,
               { r with translation_cache :=
                   r.translation_cache ++ [(uid, buildPlan uid g)] }) := by
        unfold translateGene
        rw [hc, hg]
        exact if_neg (by simp [hst])
      rw [htr]
      constructor
      · constructor
        · rintro ⟨msg, hmsg⟩
          exact absurd hmsg (by simp)
        · rintro (hnone | ⟨g2, hg2, hst2⟩)
          · exact absurd hnone (by simp)
          · rw [Option.some_inj] at hg2
            exact absurd (hg2 ▸ hst) hst2
      · intro plan r2 hok
        rw [Except.ok.injEq, Prod.mk.injEq] at hok
        obtain ⟨hplan, hr2⟩ := hok
        constructor
        · refine ⟨g, rfl, hst, ?_, ?_, ?_⟩
          · rw [← hplan]
            simp only [buildPlan, List.map_map]
            exact List.enum_map_snd g.codons
          · rw [← hplan]
            simp only [buildPlan, List.map_map]
            have hcomp : ((fun s => ExecutionStep.order s) ∘ fun ic =>
                ({ order := ic.1 + 1, codon := ic.2 } : ExecutionStep))
                = (fun i => i + 1) ∘ Prod.fst := rfl
            rw [hcomp, ← List.map_map, List.enum_map_fst]
          · rw [← hplan]
            simp [buildPlan]
        · have hcache : alistGet r2.translation_cache uid = some plan := by
            rw [← hr2, ← hplan]
            exact alistGet_append_self _ _ _ hc
          unfold translateGene
          rw [hcache]

/-- C7 witness: the fresh ribosome over the active two-codon gene satisfies
the cache-miss hypothesis, and the amended theorem yields that its
translation cannot fail. -/
theorem c7_amended_witness :
    alistGet riboC7.translation_cache "gene:routine" = none
    ∧ ¬ ∃ msg, translateGene riboC7 "gene:routine" = Except.error msg := by
  refine ⟨by decide, ?_⟩
  intro hmsg
  rcases (c7_amended riboC7 "gene:routine" (by decide)).1.mp hmsg with
    hnone | ⟨g, hg, hst⟩
  · exact absurd hnone (by decide)
  · have hgg : getGene riboC7.genome "gene:routine" = some geneC7 := by decide
    rw [hgg, Option.some_inj] at hg
    exact hst (hg ▸ (by decide : geneC7.status = GeneStatus.active))

/-- C8 counterexample: `findByContext` does not use word overlap — the query
`"shut"` has zero word overlap with the name `"pump shutdown"` (so the
spec's relevance is 0 and the template should be excluded), yet the code's
substring test gives it relevance 3 and returns it. -/
theorem c8_counterexample :
    findGenesByContext genomeC8 "shut" = [geneC8]
    ∧ specRelevance "shut" geneC8 = 0 := by
  refine ⟨by decide, by decide⟩

/-- C6 (amended): each evaluator's returned evaluation is a pure function
of (template, context, intent) — independent of the evaluator's accumulated
history, so repeated calls return equal results — and the only state touched
is the evaluator's own history, to which the evaluation is appended (shown
for all four motors; refuted as originally stated by `c6_counterexample`,
since the history append does change evaluator state). -/
theorem c6_amended (h1 h2 : List MotorEvaluation) (g : OperationalGene)
    (ctx : EvalContext) (it : IntentSpec) :
    ((motorStep praxEvaluate h1 g ctx it).2 = (motorStep praxEvaluate h2 g ctx it).2
     ∧ (motorStep praxEvaluate h1 g ctx it).1 = h1 ++ [praxEvaluate g ctx it]
     ∧ (motorStep praxEvaluate (motorStep praxEvaluate h1 g ctx it).1 g ctx it).2
        = (motorStep praxEvaluate h1 g ctx it).2)
    ∧ ((motorStep nashEvaluate h1 g ctx it).2 = (motorStep nashEvaluate h2 g ctx it).2
     ∧ (motorStep nashEvaluate h1 g ctx it).1 = h1 ++ [nashEvaluate g ctx it]
     ∧ (motorStep nashEvaluate (motorStep nashEvaluate h1 g ctx it).1 g ctx it).2
        = (motorStep nashEvaluate h1 g ctx it).2)
    ∧ ((motorStep chaoticEvaluate h1 g ctx it).2 = (motorStep chaoticEvaluate h2 g ctx it).2
     ∧ (motorStep chaoticEvaluate h1 g ctx it).1 = h1 ++ [chaoticEvaluate g ctx it]
     ∧ (motorStep chaoticEvaluate (motorStep chaoticEvaluate h1 g ctx it).1 g ctx it).2
        = (motorStep chaoticEvaluate h1 g ctx it).2)
    ∧ ((motorStep meristicEvaluate h1 g ctx it).2 = (motorStep meristicEvaluate h2 g ctx it).2
     ∧ (motorStep meristicEvaluate h1 g ctx it).1 = h1 ++ [meristicEvaluate g ctx it]
     ∧ (motorStep meristicEvaluate (motorStep meristicEvaluate h1 g ctx it).1 g ctx it).2
        = (motorStep meristicEvaluate h1 g ctx it).2) :=
  ⟨⟨rfl, rfl, rfl⟩, ⟨rfl, rfl, rfl⟩, ⟨rfl, rfl, rfl⟩, ⟨rfl, rfl, rfl⟩⟩

/-- Stable insertion preserves the multiset of genes. -/
theorem relInsert_perm (q : String) (g : OperationalGene)
    (l : List OperationalGene) : (relInsert q g l).Perm (g :: l) := by
  induction l with
  | nil => exact List.Perm.refl _
  | cons h t ih =>
    unfold relInsert
    by_cases hle : relevanceOf q h ≤ relevanceOf q g
    · rw [if_pos hle]
    · rw [if_neg hle]
      exact (ih.cons h).trans (List.Perm.swap g h t)

/-- The stable relevance sort is a permutation. -/
theorem relSort_perm (q : String) (l : List OperationalGene) :
    (relSort q l).Perm l := by
  induction l with
  | nil => exact List.Perm.refl _
  | cons g t ih =>
    exact (relInsert_perm q g (relSort q t)).trans (ih.cons g)

/-- Stable insertion preserves relevance-descending sortedness. -/
theorem relInsert_pairwise (q : String) (g : OperationalGene)
    (l : List OperationalGene)
    (hs : l.Pairwise (fun a b => relevanceOf q b ≤ relevanceOf q a)) :
    (relInsert q g l).Pairwise (fun a b => relevanceOf q b ≤ relevanceOf q a) := by
  induction l with
  | nil => simp [relInsert]
  | cons h t ih =>
    rcases List.pairwise_cons.mp hs with ⟨hh, ht⟩
    unfold relInsert
    by_cases hle : relevanceOf q h ≤ relevanceOf q g
    · rw [if_pos hle]
      refine List.pairwise_cons.mpr ⟨?_, hs⟩
      intro b hb
      rcases List.mem_cons.mp hb with hbh | hbt
      · exact hbh ▸ hle
      · exact le_trans (hh b hbt) hle
    · rw [if_neg hle]
      refine List.pairwise_cons.mpr ⟨?_, ih ht⟩
      intro b hb
      rcases List.mem_cons.mp ((relInsert_perm q g t).mem_iff.mp hb) with hbg | hbt
      · exact hbg ▸ le_of_not_le hle
      · exact hh b hbt

/-- The stable relevance sort is relevance-descending. -/
theorem relSort_pairwise (q : String) (l : List OperationalGene) :
    (relSort q l).Pairwise (fun a b => relevanceOf q b ≤ relevanceOf q a) := by
  induction l with
  | nil => simp [relSort]
  | cons g t ih => exact relInsert_pairwise q g (relSort q t) ih

/-- Filtering one relevance class through a stable insertion: the inserted
gene lands in front of its own class and leaves the others untouched. -/
theorem relInsert_filter (q : String) (g : OperationalGene) (k : Nat)
    (l : List OperationalGene) :
    (relInsert q g l).filter (fun x => relevanceOf q x == k)
      = if relevanceOf q g = k
        then g :: l.filter (fun x => relevanceOf q x == k)
        else l.filter (fun x => relevanceOf q x == k) := by
  induction l with
  | nil =>
    by_cases hgk : relevanceOf q g = k <;> simp [relInsert, hgk]
  | cons h t ih =>
    unfold relInsert
    by_cases hle : relevanceOf q h ≤ relevanceOf q g
    · rw [if_pos hle]
      by_cases hgk : relevanceOf q g = k <;>
        simp [List.filter_cons, hgk]
    · rw [if_neg hle]
      by_cases hgk : relevanceOf q g = k
      · have hhk : ¬ relevanceOf q h = k := by omega
        simp [List.filter_cons, hhk, ih, hgk]
      · by_cases hhk : relevanceOf q h = k <;>
          simp [List.filter_cons, hhk, ih, hgk]

/-- Stability of the relevance sort: each relevance class keeps its original
(insertion) order. -/
theorem relSort_filter (q : String) (k : Nat) (l : List OperationalGene) :
    (relSort q l).filter (fun x => relevanceOf q x == k)
      = l.filter (fun x => relevanceOf q x == k) := by
  induction l with
  | nil => rfl
  | cons g t ih =>
    unfold relSort
    rw [relInsert_filter]
    by_cases hgk : relevanceOf q g = k <;>
      simp [List.filter_cons, hgk, ih]

/-- C8 (amended): `findByContext` returns exactly the templates of positive
relevance — where relevance is 3 if the query occurs as a substring of the
lowered name, plus 2 if of the lowered purpose, plus 1 per metadata value
containing it (`relevanceOf`, not the spec's word-overlap formula, refuted
by `c8_counterexample`) — sorted with relevance non-increasing, and
equal-relevance templates keep their original insertion order. -/
theorem c8_amended (dg : DigitalGenome) (q : String) :
    List.Pairwise (fun a b => relevanceOf q b ≤ relevanceOf q a)
      (findGenesByContext dg q)
    ∧ (findGenesByContext dg q).Perm
        (dg.genes.filter (fun g => 0 < relevanceOf q g))
    ∧ ∀ k, (findGenesByContext dg q).filter (fun g => relevanceOf q g == k)
        = (dg.genes.filter (fun g => 0 < relevanceOf q g)).filter
            (fun g => relevanceOf q g == k) := by
  refine ⟨relSort_pairwise q _, relSort_perm q _, fun k => relSort_filter q k _⟩

/-- Every catastrophic failure mode comes from a critical codon. -/
theorem filterMap_critical_any (l : List PraxeologicalCodon) :
    (l.filterMap (fun c =>
       if c.safety_level = SafetyLevel.critical
       then some (⟨"critical_failure", true⟩ : FailureMode) else none)).any
         (fun fm => fm.catastrophic)
      = l.any (fun c => c.safety_level = SafetyLevel.critical) := by
  induction l with
  | nil => rfl
  | cons c t ih =>
    by_cases hc : c.safety_level = SafetyLevel.critical <;>
      simp [List.filterMap_cons, hc, ih]

/-- The robustness evaluator's catastrophe test is exactly "some codon is
critical" — exception handlers play no part in it. -/
theorem failureModes_catastrophic (g : OperationalGene) :
    (identifyFailureModes g).any (fun fm => fm.catastrophic)
      = g.codons.any (fun c => c.safety_level = SafetyLevel.critical) := by
  unfold identifyFailureModes
  rw [List.any_append]
  have h2 : (if g.exception_handlers = []
      then [(⟨"unhandled_exception", false⟩ : FailureMode)] else []).any
        (fun fm => fm.catastrophic) = false := by
    split <;> simp
  rw [h2, Bool.or_false]
  exact filterMap_critical_any g.codons

/-- C5 (amended): the robustness (chaotic) evaluator vetoes exactly when
some atomic unit is at critical safety tier — regardless of exception
handlers (the claim's handler offset is refuted by `c5_counterexample`) —
or the sensitivity complement is below 0.1, or the basin size is below 0.1
(the last is unreachable, as the basin is floored at 0.1, but is the code's
literal check). -/
theorem c5_amended (g : OperationalGene) (ctx : EvalContext) (it : IntentSpec) :
    (chaoticEvaluate g ctx it).is_veto = true ↔
      (g.codons.any (fun c => c.safety_level = SafetyLevel.critical) = true
       ∨ sensitivityFactor g < 1/10
       ∨ estimateBasinSize g < 1/10) := by
  have hb := failureModes_catastrophic g
  simp only [chaoticEvaluate]
  rw [hb]
  split_ifs with h1 h2 h3 <;> simp_all

/-- C5 witness: a gene with an unguarded critical codon satisfies the first
disjunct, and the amended theorem yields the veto. -/
theorem c5_amended_witness :
    geneC5w.codons.any (fun c => c.safety_level = SafetyLevel.critical) = true
    ∧ (chaoticEvaluate geneC5w [] {}).is_veto = true := by
  refine ⟨by decide, ?_⟩
  exact (c5_amended geneC5w [] {}).mpr (Or.inl (by decide))

/-- C10: the equilibrium (Nash) evaluator never vetoes: its stability factor
always lies in [0.7, 1], its proximity factor is exactly 1 with at most one
agent and at least 0.8 otherwise, so both veto conditions are unreachable,
and its score is strictly positive. -/
theorem c10_nash_never_vetoes (g : OperationalGene) (ctx : EvalContext)
    (it : IntentSpec) :
    (7/10 ≤ nashStability g (identifyAgents g ctx)
      ∧ nashStability g (identifyAgents g ctx) ≤ 1)
    ∧ ((identifyAgents g ctx).length ≤ 1 →
        equilibriumProximity g (identifyAgents g ctx) = 1)
    ∧ (1 < (identifyAgents g ctx).length →
        4/5 ≤ equilibriumProximity g (identifyAgents g ctx))
    ∧ (nashEvaluate g ctx it).is_veto = false
    ∧ 0 < (nashEvaluate g ctx it).score := by
  have hcov : (0:ℚ) ≤ (g.exception_handlers.length : ℚ)
      / max (((identifyAgents g ctx).length : ℚ)) 1 :=
    div_nonneg (by positivity) (le_trans zero_le_one (le_max_right _ 1))
  have hst1 : 7/10 ≤ nashStability g (identifyAgents g ctx) := by
    unfold nashStability
    have hmin : (0:ℚ) ≤ min (3/10)
        ((g.exception_handlers.length : ℚ)
          / max (((identifyAgents g ctx).length : ℚ)) 1 * (3/10)) :=
      le_min (by norm_num) (mul_nonneg hcov (by norm_num))
    linarith
  have hst2 : nashStability g (identifyAgents g ctx) ≤ 1 := by
    unfold nashStability
    have hmin := min_le_left ((3:ℚ)/10)
        ((g.exception_handlers.length : ℚ)
          / max (((identifyAgents g ctx).length : ℚ)) 1 * (3/10))
    linarith
  have hprox1 : (identifyAgents g ctx).length ≤ 1 →
      equilibriumProximity g (identifyAgents g ctx) = 1 := by
    intro hlen
    unfold equilibriumProximity
    rw [if_pos hlen]
  have hprox2 : 1 < (identifyAgents g ctx).length →
      4/5 ≤ equilibriumProximity g (identifyAgents g ctx) := by
    intro hlen
    unfold equilibriumProximity
    rw [if_neg (by omega)]
    split <;> (refine le_min (by norm_num) (by norm_num))
  have hproxpos : 0 < equilibriumProximity g (identifyAgents g ctx) := by
    by_cases hlen : (identifyAgents g ctx).length ≤ 1
    · rw [hprox1 hlen]; norm_num
    · have := hprox2 (by omega)
      linarith
  have hco : 0 < multiAgentCoherence g (identifyAgents g ctx) := by
    unfold multiAgentCoherence
    split
    · norm_num
    · refine lt_of_lt_of_le (by norm_num : (0:ℚ) < 4/5) (le_min (by norm_num) ?_)
      have ha : (0:ℚ) ≤ (if g.postconditions ≠ [] then (1:ℚ)/10 else 0) := by
        split <;> norm_num
      have hb2 : (0:ℚ) ≤ (if g.evaluation_metrics ≠ [] then (1:ℚ)/10 else 0) := by
        split <;> norm_num
      linarith
  have hne : nashEvaluate g ctx it =
      ⟨"Nash", equilibriumProximity g (identifyAgents g ctx)
                 * nashStability g (identifyAgents g ctx)
                 * multiAgentCoherence g (identifyAgents g ctx),
       false, none, 4/5⟩ := by
    simp only [nashEvaluate]
    rw [if_neg (by intro hlt; linarith), if_neg ?_]
    rintro ⟨hlen, hep⟩
    have := hprox2 hlen
    linarith
  refine ⟨⟨hst1, hst2⟩, hprox1, hprox2, ?_, ?_⟩
  · rw [hne]
  · rw [hne]
    exact mul_pos (mul_pos hproxpos (by linarith)) hco

/-- C10 witness: a single-agent gene instantiates the at-most-one-agent
branch and the no-veto conclusion. -/
theorem c10_witness :
    (identifyAgents geneC10 []).length ≤ 1
    ∧ equilibriumProximity geneC10 (identifyAgents geneC10 []) = 1
    ∧ (nashEvaluate geneC10 [] {}).is_veto = false := by
  refine ⟨by decide, ?_, ?_⟩
  · exact (c10_nash_never_vetoes geneC10 [] {}).2.1 (by decide)
  · exact (c10_nash_never_vetoes geneC10 [] {}).2.2.2.1

/-- The intent-alignment factor lies in [0, 1]. -/
theorem intentAlignment_bounds (g : OperationalGene) (it : IntentSpec) :
    0 ≤ intentAlignment g it ∧ intentAlignment g it ≤ 1 := by
  simp only [intentAlignment]
  split
  · norm_num
  · constructor
    · exact le_trans (by norm_num) (le_max_left (1/10) _)
    · exact max_le (by norm_num) (min_le_left 1 _)

/-- Each per-condition credit lies in [0, 1]. -/
theorem condCredit_bounds (keys : List String) (c : String) :
    0 ≤ condCredit keys c ∧ condCredit keys c ≤ 1 := by
  unfold condCredit
  split <;> norm_num

/-- The precondition-satisfaction factor lies in [0, 1]. -/
theorem preconditionSatisfaction_bounds (g : OperationalGene)
    (ctx : EvalContext) :
    0 ≤ preconditionSatisfaction g ctx
    ∧ preconditionSatisfaction g ctx ≤ 1 := by
  simp only [preconditionSatisfaction]
  split
  · norm_num
  · rename_i hne
    have hlen : 0 < g.activation_conditions.length :=
      List.length_pos.mpr hne
    have hlenq : (0:ℚ) < (g.activation_conditions.length : ℚ) := by
      exact_mod_cast hlen
    constructor
    · apply div_nonneg _ (le_of_lt hlenq)
      apply List.sum_nonneg
      intro x hx
      rcases List.mem_map.mp hx with ⟨c, _, rfl⟩
      exact (condCredit_bounds _ c).1
    · rw [div_le_one hlenq]
      calc (g.activation_conditions.map
              (condCredit (ctx.map (fun p => strLower p.1)))).sum
          ≤ (g.activation_conditions.map
              (condCredit (ctx.map (fun p => strLower p.1)))).length • (1:ℚ) := by
            apply List.sum_le_card_nsmul
            intro x hx
            rcases List.mem_map.mp hx with ⟨c, _, rfl⟩
            exact (condCredit_bounds _ c).2
        _ = (g.activation_conditions.length : ℚ) := by
            simp [nsmul_eq_mul]

/-- The per-codon penalty lies in (0, 1]. -/
theorem codonPenalty_bounds (c : PraxeologicalCodon) :
    0 < codonPenalty c ∧ codonPenalty c ≤ 1 := by
  unfold codonPenalty
  split <;> norm_num

/-- The adjacency penalty lies in (0, 1]. -/
theorem chainPenalty_bounds (a b : PraxeologicalCodon) :
    0 < chainPenalty a b ∧ chainPenalty a b ≤ 1 := by
  unfold chainPenalty
  split <;> norm_num

/-- The coherence loop product lies in [0, 1]. -/
theorem coherenceGo_bounds (prev : PraxeologicalCodon)
    (l : List PraxeologicalCodon) :
    0 ≤ coherenceGo prev l ∧ coherenceGo prev l ≤ 1 := by
  induction l generalizing prev with
  | nil => norm_num [coherenceGo]
  | cons c cs ih =>
    unfold coherenceGo
    have h1 := codonPenalty_bounds c
    have h2 := chainPenalty_bounds prev c
    have h3 := ih c
    constructor
    · exact mul_nonneg (mul_nonneg (le_of_lt h1.1) (le_of_lt h2.1)) h3.1
    · exact mul_le_one₀ (mul_le_one₀ h1.2 (le_of_lt h2.1) h2.2) h3.1 h3.2

/-- The logical-coherence factor lies in [0, 1]. -/
theorem logicalCoherence_bounds (g : OperationalGene) :
    0 ≤ logicalCoherence g ∧ logicalCoherence g ≤ 1 := by
  rcases hco : g.codons with _ | ⟨c, cs⟩
  · simp [logicalCoherence, hco]
  · have h1 := codonPenalty_bounds c
    have h3 := coherenceGo_bounds c cs
    have heq : logicalCoherence g = codonPenalty c * coherenceGo c cs := by
      simp [logicalCoherence, hco]
    rw [heq]
    exact ⟨mul_nonneg (le_of_lt h1.1) h3.1,
      mul_le_one₀ h1.2 h3.1 h3.2⟩

/-- The intention evaluator's score lies in [0, 1]. -/
theorem praxEvaluate_score_bounds (g : OperationalGene) (ctx : EvalContext)
    (it : IntentSpec) :
    0 ≤ (praxEvaluate g ctx it).score ∧ (praxEvaluate g ctx it).score ≤ 1 := by
  have ha := intentAlignment_bounds g it
  have hp := preconditionSatisfaction_bounds g ctx
  have hc := logicalCoherence_bounds g
  simp only [praxEvaluate]
  split_ifs <;> dsimp only
  · norm_num
  · norm_num
  · norm_num
  · exact ⟨mul_nonneg (mul_nonneg ha.1 hp.1) hc.1,
      mul_le_one₀ (mul_le_one₀ ha.2 hp.1 hp.2) hc.1 hc.2⟩

/-- A vetoing intention evaluation has score exactly 0. -/
theorem praxEvaluate_veto_zero (g : OperationalGene) (ctx : EvalContext)
    (it : IntentSpec) :
    (praxEvaluate g ctx it).is_veto = true → (praxEvaluate g ctx it).score = 0 := by
  simp only [praxEvaluate]
  split_ifs <;> simp

/-- The equilibrium-proximity factor lies in [0, 1]. -/
theorem equilibriumProximity_bounds (g : OperationalGene)
    (agents : List String) :
    0 ≤ equilibriumProximity g agents ∧ equilibriumProximity g agents ≤ 1 := by
  unfold equilibriumProximity
  split
  · norm_num
  · constructor
    · refine le_min (by norm_num) ?_
      split <;> norm_num
    · exact min_le_left 1 _

/-- The stability factor lies in [0.7, 1]. -/
theorem nashStability_bounds (g : OperationalGene) (agents : List String) :
    7/10 ≤ nashStability g agents ∧ nashStability g agents ≤ 1 := by
  have hcov : (0:ℚ) ≤ (g.exception_handlers.length : ℚ)
      / max ((agents.length : ℚ)) 1 :=
    div_nonneg (by positivity) (le_trans zero_le_one (le_max_right _ 1))
  unfold nashStability
  constructor
  · have hmin : (0:ℚ) ≤ min (3/10) ((g.exception_handlers.length : ℚ)
        / max ((agents.length : ℚ)) 1 * (3/10)) :=
      le_min (by norm_num) (mul_nonneg hcov (by norm_num))
    linarith
  · have hmin := min_le_left ((3:ℚ)/10) ((g.exception_handlers.length : ℚ)
        / max ((agents.length : ℚ)) 1 * (3/10))
    linarith

/-- The multi-agent-coherence factor lies in [0, 1]. -/
theorem multiAgentCoherence_bounds (g : OperationalGene)
    (agents : List String) :
    0 ≤ multiAgentCoherence g agents ∧ multiAgentCoherence g agents ≤ 1 := by
  unfold multiAgentCoherence
  split
  · norm_num
  · have ha : (0:ℚ) ≤ (if g.postconditions ≠ [] then (1:ℚ)/10 else 0) := by
      split <;> norm_num
    have hb : (0:ℚ) ≤ (if g.evaluation_metrics ≠ [] then (1:ℚ)/10 else 0) := by
      split <;> norm_num
    exact ⟨le_min (by norm_num) (by linarith), min_le_left 1 _⟩

/-- The equilibrium evaluator's score lies in [0, 1]. -/
theorem nashEvaluate_score_bounds (g : OperationalGene) (ctx : EvalContext)
    (it : IntentSpec) :
    0 ≤ (nashEvaluate g ctx it).score ∧ (nashEvaluate g ctx it).score ≤ 1 := by
  have hep := equilibriumProximity_bounds g (identifyAgents g ctx)
  have hst := nashStability_bounds g (identifyAgents g ctx)
  have hco := multiAgentCoherence_bounds g (identifyAgents g ctx)
  have hst0 : (0:ℚ) ≤ nashStability g (identifyAgents g ctx) :=
    le_trans (by norm_num) hst.1
  simp only [nashEvaluate]
  split_ifs <;> dsimp only
  · norm_num
  · norm_num
  · exact ⟨mul_nonneg (mul_nonneg hep.1 hst0) hco.1,
      mul_le_one₀ (mul_le_one₀ hep.2 hst0 hst.2) hco.1 hco.2⟩

/-- A vetoing equilibrium evaluation has score exactly 0. -/
theorem nashEvaluate_veto_zero (g : OperationalGene) (ctx : EvalContext)
    (it : IntentSpec) :
    (nashEvaluate g ctx it).is_veto = true → (nashEvaluate g ctx it).score = 0 := by
  simp only [nashEvaluate]
  split_ifs <;> simp

/-- The raw sensitivity estimate is non-negative. -/
theorem estimateSensitivity_nonneg (g : OperationalGene) :
    0 ≤ estimateSensitivity g := by
  unfold estimateSensitivity
  refine le_min (by norm_num) ?_
  have h1 : (0:ℚ) ≤ (g.codons.length : ℚ) * (1/20) := by positivity
  have h2 : (0:ℚ) ≤ (if g.safetyLevel = SafetyLevel.critical then (1:ℚ)/5 else 0) := by
    split <;> norm_num
  have h3 : (0:ℚ) ≤ (if g.exception_handlers = [] then (3:ℚ)/20 else 0) := by
    split <;> norm_num
  linarith

/-- The sensitivity complement lies in [0, 1]. -/
theorem sensitivityFactor_bounds (g : OperationalGene) :
    0 ≤ sensitivityFactor g ∧ sensitivityFactor g ≤ 1 := by
  unfold sensitivityFactor
  have h1 : estimateSensitivity g ≤ 1 := by
    unfold estimateSensitivity
    exact min_le_left 1 _
  have h2 := estimateSensitivity_nonneg g
  constructor <;> linarith

/-- The basin size lies in [0.1, 0.8]. -/
theorem estimateBasinSize_bounds (g : OperationalGene) :
    1/10 ≤ estimateBasinSize g ∧ estimateBasinSize g ≤ 4/5 := by
  unfold estimateBasinSize
  constructor
  · exact le_max_left _ _
  · apply max_le (by norm_num)
    have hsum : (0:ℚ) ≤ (g.activation_conditions.map basinNarrowing).sum := by
      apply List.sum_nonneg
      intro x hx
      rcases List.mem_map.mp hx with ⟨c, _, rfl⟩
      unfold basinNarrowing
      split <;> norm_num
    linarith

/-- The perturbation tolerance lies in [0, 1]. -/
theorem perturbationTolerance_bounds (g : OperationalGene) :
    0 ≤ perturbationTolerance g ∧ perturbationTolerance g ≤ 1 := by
  unfold perturbationTolerance
  constructor
  · refine le_min (by norm_num) ?_
    have h1 : (0:ℚ) ≤ (g.exception_handlers.length : ℚ) * (1/20) := by positivity
    have h2 : (0:ℚ) ≤ (if g.postconditions ≠ [] then (1:ℚ)/10 else 0) := by
      split <;> norm_num
    linarith
  · exact min_le_left 1 _

/-- The robustness evaluator's score lies in [0, 1]. -/
theorem chaoticEvaluate_score_bounds (g : OperationalGene) (ctx : EvalContext)
    (it : IntentSpec) :
    0 ≤ (chaoticEvaluate g ctx it).score
    ∧ (chaoticEvaluate g ctx it).score ≤ 1 := by
  have hsf := sensitivityFactor_bounds g
  have hb := estimateBasinSize_bounds g
  have hpt := perturbationTolerance_bounds g
  have hb0 : (0:ℚ) ≤ estimateBasinSize g := le_trans (by norm_num) hb.1
  have hb1 : estimateBasinSize g ≤ 1 := le_trans hb.2 (by norm_num)
  simp only [chaoticEvaluate]
  split_ifs <;> dsimp only
  · norm_num
  · norm_num
  · norm_num
  · exact ⟨mul_nonneg (mul_nonneg hsf.1 hb0) hpt.1,
      mul_le_one₀ (mul_le_one₀ hsf.2 hb0 hb1) hpt.1 hpt.2⟩

/-- A vetoing robustness evaluation has score exactly 0. -/
theorem chaoticEvaluate_veto_zero (g : OperationalGene) (ctx : EvalContext)
    (it : IntentSpec) :
    (chaoticEvaluate g ctx it).is_veto = true →
      (chaoticEvaluate g ctx it).score = 0 := by
  simp only [chaoticEvaluate]
  split_ifs <;> simp

/-- Every detected pattern has a universality weight in [0, 1]. -/
theorem detectPatterns_universality (g : OperationalGene) :
    ∀ p ∈ detectPatterns g, 0 ≤ p.universality ∧ p.universality ≤ 1 := by
  intro p hp
  unfold detectPatterns at hp
  simp only [List.mem_append] at hp
  rcases hp with ((h | h) | h) | h <;>
    · split at h <;> simp_all <;> norm_num

/-- The pattern-universality factor lies in [0, 1]. -/
theorem patternUniversality_bounds (ps : List DetectedPattern)
    (hps : ∀ p ∈ ps, 0 ≤ p.universality ∧ p.universality ≤ 1) :
    0 ≤ patternUniversality ps ∧ patternUniversality ps ≤ 1 := by
  unfold patternUniversality
  split
  · norm_num
  · rename_i hne
    have hlen : 0 < ps.length := List.length_pos.mpr hne
    have hlenq : (0:ℚ) < (ps.length : ℚ) := by exact_mod_cast hlen
    constructor
    · apply div_nonneg _ (le_of_lt hlenq)
      apply List.sum_nonneg
      intro x hx
      rcases List.mem_map.mp hx with ⟨p, hpmem, rfl⟩
      exact (hps p hpmem).1
    · rw [div_le_one hlenq]
      calc (ps.map (fun p => p.universality)).sum
          ≤ (ps.map (fun p => p.universality)).length • (1:ℚ) := by
            apply List.sum_le_card_nsmul
            intro x hx
            rcases List.mem_map.mp hx with ⟨p, hpmem, rfl⟩
            exact (hps p hpmem).2
        _ = (ps.length : ℚ) := by simp [nsmul_eq_mul]

/-- The micro sub-score lies in [0, 1]. -/
theorem microScore_bounds (g : OperationalGene) :
    0 ≤ microScore g ∧ microScore g ≤ 1 := by
  unfold microScore
  constructor
  · exact le_max_left 0 _
  · apply max_le (by norm_num)
    have : (0:ℚ) ≤ (1/5) * (((g.codons.filter
        (fun c => c.entity_id = "" ∨ c.action_id = "")).length : ℚ)) := by
      positivity
    linarith

/-- The meso sub-score lies in [0, 1]. -/
theorem mesoScore_bounds (g : OperationalGene) :
    0 ≤ mesoScore g ∧ mesoScore g ≤ 1 := by
  unfold mesoScore
  split <;> norm_num

/-- The macro sub-score lies in [0, 1]. -/
theorem globalScaleScore_bounds (g : OperationalGene) :
    0 ≤ globalScaleScore g ∧ globalScaleScore g ≤ 1 := by
  unfold globalScaleScore
  rcases alistGet g.metadata "domain" with _ | v
  · norm_num
  · dsimp only
    split <;> norm_num

/-- The scale-coherence factor lies in [0, 1]. -/
theorem scaleCoherence_bounds (g : OperationalGene) :
    0 ≤ scaleCoherence g ∧ scaleCoherence g ≤ 1 := by
  unfold scaleCoherence
  have h1 := microScore_bounds g
  have h2 := mesoScore_bounds g
  have h3 := globalScaleScore_bounds g
  constructor <;> nlinarith [h1.1, h1.2, h2.1, h2.2, h3.1, h3.2]

/-- Folding `max` from 0 over rationals is non-negative. -/
theorem foldr_max_nonneg (l : List ℚ) : 0 ≤ l.foldr max 0 := by
  induction l with
  | nil => norm_num
  | cons x t ih => exact le_trans ih (le_max_right x _)

/-- The proximity-to-Form factor lies in [0.7, 1]. -/
theorem potentialScore_bounds (g : OperationalGene) :
    7/10 ≤ potentialScore g ∧ potentialScore g ≤ 1 := by
  have hpen : potentialScore g = 1 - (if imagineImprovements g = [] then 0
      else min (3/10) (bestGain (imagineImprovements g) * (1/2))) := by
    simp only [potentialScore]
  rw [hpen]
  by_cases himp : imagineImprovements g = []
  · rw [if_pos himp]; norm_num
  · rw [if_neg himp]
    have h1 : min ((3:ℚ)/10) (bestGain (imagineImprovements g) * (1/2))
        ≤ 3/10 := min_le_left _ _
    have h2 : (0:ℚ) ≤ min ((3:ℚ)/10) (bestGain (imagineImprovements g) * (1/2)) := by
      refine le_min (by norm_num) ?_
      have := foldr_max_nonneg ((imagineImprovements g).map
        (fun i => i.expected_gain))
      unfold bestGain
      linarith
    constructor <;> linarith

/-- The pattern evaluator's score lies in [0, 1]. -/
theorem meristicEvaluate_score_bounds (g : OperationalGene) (ctx : EvalContext)
    (it : IntentSpec) :
    0 ≤ (meristicEvaluate g ctx it).score
    ∧ (meristicEvaluate g ctx it).score ≤ 1 := by
  have hpu := patternUniversality_bounds (detectPatterns g)
    (detectPatterns_universality g)
  have hsc := scaleCoherence_bounds g
  have hpot := potentialScore_bounds g
  have hpot0 : (0:ℚ) ≤ potentialScore g := le_trans (by norm_num) hpot.1
  simp only [meristicEvaluate]
  split_ifs <;> dsimp only
  · norm_num
  · exact ⟨mul_nonneg (mul_nonneg hpu.1 hsc.1) hpot0,
      mul_le_one₀ (mul_le_one₀ hpu.2 hsc.1 hsc.2) hpot0 hpot.2⟩

/-- A vetoing pattern evaluation has score exactly 0. -/
theorem meristicEvaluate_veto_zero (g : OperationalGene) (ctx : EvalContext)
    (it : IntentSpec) :
    (meristicEvaluate g ctx it).is_veto = true →
      (meristicEvaluate g ctx it).score = 0 := by
  simp only [meristicEvaluate]
  split_ifs <;> simp

/-- An absolute veto is exactly a zero score, for any evaluation whose veto
flag forces a zero score. -/
theorem absVeto_eq_scoreZero (e : MotorEvaluation)
    (h : e.is_veto = true → e.score = 0) :
    e.isAbsoluteVeto = (e.score == 0) := by
  unfold MotorEvaluation.isAbsoluteVeto
  cases hv : e.is_veto
  · simp
  · simp [h hv]

/-- The loop body of the aggregation, as a conditional equation. -/
theorem aggStep_eq (acc : ℚ × Bool × Option String × Option String)
    (ne : String × MotorEvaluation) :
    aggStep acc ne
      = if ne.2.isAbsoluteVeto = true ∧ acc.2.1 = false
        then (0, true, some ne.1, ne.2.veto_reason)
        else (acc.1 * ne.2.score, acc.2.1, acc.2.2.1, acc.2.2.2) := by
  simp only [aggStep]

/-- The orchestrator's loop computes the running product of scores; the
veto override does not change the value, because a vetoing evaluation's
score is 0. -/
theorem aggFold_craft (l : List (String × MotorEvaluation))
    (hz : ∀ p ∈ l, p.2.isAbsoluteVeto = true → p.2.score = 0) :
    ∀ cp b vm vr, (l.foldl aggStep (cp, b, vm, vr)).1
      = cp * (l.map (fun p => p.2.score)).prod := by
  induction l with
  | nil => intro cp b vm vr; simp
  | cons p t ih =>
    intro cp b vm vr
    rw [List.foldl_cons]
    have iht := ih (fun x hx => hz x (List.mem_cons_of_mem p hx))
    rw [aggStep_eq]
    split_ifs with h
    · rw [iht]
      have hs : p.2.score = 0 := hz p (List.mem_cons_self p t) h.1
      simp [hs]
    · rw [iht]
      simp only [List.map_cons, List.prod_cons]
      ring

/-- The orchestrator's loop latches the veto flag on the first absolute
veto. -/
theorem aggFold_vetoed (l : List (String × MotorEvaluation)) :
    ∀ cp b vm vr, (l.foldl aggStep (cp, b, vm, vr)).2.1
      = (b || l.any (fun p => p.2.isAbsoluteVeto)) := by
  induction l with
  | nil => intro cp b vm vr; simp
  | cons p t ih =>
    intro cp b vm vr
    rw [List.foldl_cons]
    rw [aggStep_eq]
    split_ifs with h
    · rw [ih]
      simp [h.1]
    · rw [ih]
      rcases h2 : p.2.isAbsoluteVeto with _ | _
      · simp [h2]
      · have hb : b = true := by
          by_contra hb
          exact h ⟨h2, Bool.eq_false_iff.mpr hb ▸ rfl⟩
        simp [hb]

/-- Once the veto flag is set, the recorded veto motor never changes. -/
theorem aggFold_motor_latched (l : List (String × MotorEvaluation)) :
    ∀ cp vm vr, (l.foldl aggStep (cp, true, vm, vr)).2.2.1 = vm := by
  induction l with
  | nil => intro cp vm vr; rfl
  | cons p t ih =>
    intro cp vm vr
    rw [List.foldl_cons]
    rw [aggStep_eq]
    rw [if_neg (by rintro ⟨_, h⟩; cases h)]
    exact ih _ vm vr

/-- Starting un-vetoed, the recorded veto motor is the first absolute veto
in iteration order. -/
theorem aggFold_motor (l : List (String × MotorEvaluation)) :
    ∀ cp vr, (l.foldl aggStep (cp, false, none, vr)).2.2.1
      = (l.find? (fun p => p.2.isAbsoluteVeto)).map (fun p => p.1) := by
  induction l with
  | nil => intro cp vr; rfl
  | cons p t ih =>
    intro cp vr
    rw [List.foldl_cons, aggStep_eq]
    by_cases h2 : p.2.isAbsoluteVeto = true
    · rw [if_pos ⟨h2, rfl⟩, aggFold_motor_latched,
        show List.find? (fun q => q.2.isAbsoluteVeto) (p :: t) = some p from
          List.find?_cons_of_pos t h2]
      rfl
    · rw [if_neg (fun hc => h2 hc.1), ih,
        show List.find? (fun q => q.2.isAbsoluteVeto) (p :: t)
            = List.find? (fun q => q.2.isAbsoluteVeto) t from
          List.find?_cons_of_neg t h2]

/-- C4: the aggregate equals the product of the four evaluator scores, each
of which lies in [0, 1], and any veto or zero score forces the aggregate to
exactly 0 independent of the other scores. -/
theorem c4_product_law (sg : ScoredGene) (ctx : EvalContext) (it : IntentSpec) :
    ((evaluateGene sg ctx it).1.craft_performance
        = (praxEvaluate sg.base ctx it).score * (nashEvaluate sg.base ctx it).score
          * (chaoticEvaluate sg.base ctx it).score
          * (meristicEvaluate sg.base ctx it).score)
    ∧ (∀ p ∈ (evaluateGene sg ctx it).1.evaluations,
        0 ≤ p.2.score ∧ p.2.score ≤ 1)
    ∧ ((∃ p ∈ (evaluateGene sg ctx it).1.evaluations,
          p.2.is_veto = true ∨ p.2.score = 0) →
        (evaluateGene sg ctx it).1.craft_performance = 0) := by
  have hz : ∀ p ∈ [("Praxeological", praxEvaluate sg.base ctx it),
      ("Nash", nashEvaluate sg.base ctx it),
      ("Chaotic", chaoticEvaluate sg.base ctx it),
      ("Meristic", meristicEvaluate sg.base ctx it)],
      p.2.isAbsoluteVeto = true → p.2.score = 0 := by
    intro p hp hv
    have hv2 := hv
    unfold MotorEvaluation.isAbsoluteVeto at hv2
    rcases List.mem_cons.mp hp with rfl | hp
    · rcases Bool.or_eq_true_iff.mp hv2 with hs | hveto
      · simpa using hs
      · exact praxEvaluate_veto_zero sg.base ctx it hveto
    rcases List.mem_cons.mp hp with rfl | hp
    · rcases Bool.or_eq_true_iff.mp hv2 with hs | hveto
      · simpa using hs
      · exact nashEvaluate_veto_zero sg.base ctx it hveto
    rcases List.mem_cons.mp hp with rfl | hp
    · rcases Bool.or_eq_true_iff.mp hv2 with hs | hveto
      · simpa using hs
      · exact chaoticEvaluate_veto_zero sg.base ctx it hveto
    rcases List.mem_cons.mp hp with rfl | hp
    · rcases Bool.or_eq_true_iff.mp hv2 with hs | hveto
      · simpa using hs
      · exact meristicEvaluate_veto_zero sg.base ctx it hveto
    simp at hp
  have hcraft : (evaluateGene sg ctx it).1.craft_performance
      = (praxEvaluate sg.base ctx it).score * (nashEvaluate sg.base ctx it).score
        * (chaoticEvaluate sg.base ctx it).score
        * (meristicEvaluate sg.base ctx it).score := by
    show (List.foldl aggStep (1, false, none, none) _).1 = _
    rw [aggFold_craft _ hz]
    simp only [List.map_cons, List.map_nil, List.prod_cons, List.prod_nil]
    ring
  refine ⟨hcraft, ?_, ?_⟩
  · intro p hp
    have hp2 : p ∈ [("Praxeological", praxEvaluate sg.base ctx it),
        ("Nash", nashEvaluate sg.base ctx it),
        ("Chaotic", chaoticEvaluate sg.base ctx it),
        ("Meristic", meristicEvaluate sg.base ctx it)] := hp
    rcases List.mem_cons.mp hp2 with rfl | hp2
    · exact praxEvaluate_score_bounds sg.base ctx it
    rcases List.mem_cons.mp hp2 with rfl | hp2
    · exact nashEvaluate_score_bounds sg.base ctx it
    rcases List.mem_cons.mp hp2 with rfl | hp2
    · exact chaoticEvaluate_score_bounds sg.base ctx it
    rcases List.mem_cons.mp hp2 with rfl | hp2
    · exact meristicEvaluate_score_bounds sg.base ctx it
    simp at hp2
  · rintro ⟨p, hp, hvz⟩
    have hs : p.2.score = 0 := by
      rcases hvz with hveto | hs
      · refine hz p hp ?_
        unfold MotorEvaluation.isAbsoluteVeto
        simp [hveto]
      · exact hs
    rw [hcraft]
    have hp2 : p ∈ [("Praxeological", praxEvaluate sg.base ctx it),
        ("Nash", nashEvaluate sg.base ctx it),
        ("Chaotic", chaoticEvaluate sg.base ctx it),
        ("Meristic", meristicEvaluate sg.base ctx it)] := hp
    rcases List.mem_cons.mp hp2 with rfl | hp2
    · rw [show (praxEvaluate sg.base ctx it).score = 0 from hs]; ring
    rcases List.mem_cons.mp hp2 with rfl | hp2
    · rw [show (nashEvaluate sg.base ctx it).score = 0 from hs]; ring
    rcases List.mem_cons.mp hp2 with rfl | hp2
    · rw [show (chaoticEvaluate sg.base ctx it).score = 0 from hs]; ring
    rcases List.mem_cons.mp hp2 with rfl | hp2
    · rw [show (meristicEvaluate sg.base ctx it).score = 0 from hs]; ring
    simp at hp2

/-- C4 witness: on the unguarded critical gene the robustness evaluator
vetoes, and the product law forces the aggregate to exactly 0. -/
theorem c4_product_law_witness :
    (∃ p ∈ (evaluateGene ⟨geneC5w, {}⟩ [] {}).1.evaluations,
        p.2.is_veto = true ∨ p.2.score = 0)
    ∧ (evaluateGene ⟨geneC5w, {}⟩ [] {}).1.craft_performance = 0 := by
  have hmem : (("Chaotic", chaoticEvaluate geneC5w [] {}))
      ∈ (evaluateGene ⟨geneC5w, {}⟩ [] {}).1.evaluations := by
    show _ ∈ [_, _, _, _]
    simp
  have hex : ∃ p ∈ (evaluateGene ⟨geneC5w, {}⟩ [] {}).1.evaluations,
      p.2.is_veto = true ∨ p.2.score = 0 :=
    ⟨("Chaotic", chaoticEvaluate geneC5w [] {}), hmem, Or.inl (by decide)⟩
  exact ⟨hex, (c4_product_law ⟨geneC5w, {}⟩ [] {}).2.2 hex⟩

/-- Any of the four evaluations of a gene has score 0 on an absolute veto. -/
theorem fourEvals_absVeto_zero (g : OperationalGene) (ctx : EvalContext)
    (it : IntentSpec) :
    ∀ p ∈ [("Praxeological", praxEvaluate g ctx it),
        ("Nash", nashEvaluate g ctx it),
        ("Chaotic", chaoticEvaluate g ctx it),
        ("Meristic", meristicEvaluate g ctx it)],
      p.2.isAbsoluteVeto = true → p.2.score = 0 := by
  intro p hp hv
  have hv2 := hv
  unfold MotorEvaluation.isAbsoluteVeto at hv2
  rcases List.mem_cons.mp hp with rfl | hp
  · rcases Bool.or_eq_true_iff.mp hv2 with hs | hveto
    · simpa using hs
    · exact praxEvaluate_veto_zero g ctx it hveto
  rcases List.mem_cons.mp hp with rfl | hp
  · rcases Bool.or_eq_true_iff.mp hv2 with hs | hveto
    · simpa using hs
    · exact nashEvaluate_veto_zero g ctx it hveto
  rcases List.mem_cons.mp hp with rfl | hp
  · rcases Bool.or_eq_true_iff.mp hv2 with hs | hveto
    · simpa using hs
    · exact chaoticEvaluate_veto_zero g ctx it hveto
  rcases List.mem_cons.mp hp with rfl | hp
  · rcases Bool.or_eq_true_iff.mp hv2 with hs | hveto
    · simpa using hs
    · exact meristicEvaluate_veto_zero g ctx it hveto
  simp at hp

/-- C3: `evaluate` is total on the embedding (no unhandled failure) and its
side effect writes the four evaluator scores, the aggregate score and the
veto metadata (flag and source motor) back onto the evaluated template,
consistently with the returned result.  The template's own fields are
otherwise untouched.  (`record_motor_scores` is the spec-modelled v2 method;
see its doc comment.) -/
theorem c3_orchestrator_writes_back (sg : ScoredGene) (ctx : EvalContext)
    (it : IntentSpec) :
    ((evaluateGene sg ctx it).2).base = sg.base
    ∧ ((evaluateGene sg ctx it).2).cache.motor_scores
        = [("Praxeological", (praxEvaluate sg.base ctx it).score),
           ("Nash", (nashEvaluate sg.base ctx it).score),
           ("Chaotic", (chaoticEvaluate sg.base ctx it).score),
           ("Meristic", (meristicEvaluate sg.base ctx it).score)]
    ∧ ((evaluateGene sg ctx it).2).cache.aggregate_score
        = some ((evaluateGene sg ctx it).1.craft_performance)
    ∧ ((evaluateGene sg ctx it).2).cache.vetoed
        = (evaluateGene sg ctx it).1.is_vetoed
    ∧ ((evaluateGene sg ctx it).2).cache.veto_source
        = (evaluateGene sg ctx it).1.veto_motor := by
  have hz := fourEvals_absVeto_zero sg.base ctx it
  have haP := absVeto_eq_scoreZero _ (praxEvaluate_veto_zero sg.base ctx it)
  have haN := absVeto_eq_scoreZero _ (nashEvaluate_veto_zero sg.base ctx it)
  have haC := absVeto_eq_scoreZero _ (chaoticEvaluate_veto_zero sg.base ctx it)
  have haM := absVeto_eq_scoreZero _ (meristicEvaluate_veto_zero sg.base ctx it)
  have hcraft : (evaluateGene sg ctx it).1.craft_performance
      = (praxEvaluate sg.base ctx it).score * (nashEvaluate sg.base ctx it).score
        * (chaoticEvaluate sg.base ctx it).score
        * (meristicEvaluate sg.base ctx it).score := by
    show (List.foldl aggStep (1, false, none, none) _).1 = _
    rw [aggFold_craft _ hz]
    simp only [List.map_cons, List.map_nil, List.prod_cons, List.prod_nil]
    ring
  refine ⟨rfl, rfl, ?_, ?_, ?_⟩
  · rw [hcraft]
    rfl
  · have hvet : (evaluateGene sg ctx it).1.is_vetoed
        = ((praxEvaluate sg.base ctx it).isAbsoluteVeto
           || ((nashEvaluate sg.base ctx it).isAbsoluteVeto
           || ((chaoticEvaluate sg.base ctx it).isAbsoluteVeto
           || (meristicEvaluate sg.base ctx it).isAbsoluteVeto))) := by
      show (List.foldl aggStep (1, false, none, none) _).2.1 = _
      rw [aggFold_vetoed]
      simp [List.any_cons]
    rw [hvet, haP, haN, haC, haM]
    show ((praxEvaluate sg.base ctx it).score == 0
          || (nashEvaluate sg.base ctx it).score == 0
          || (chaoticEvaluate sg.base ctx it).score == 0
          || (meristicEvaluate sg.base ctx it).score == 0) = _
    simp [Bool.or_assoc]
  · have hmot : (evaluateGene sg ctx it).1.veto_motor
        = (List.find? (fun q => q.2.isAbsoluteVeto)
            [("Praxeological", praxEvaluate sg.base ctx it),
             ("Nash", nashEvaluate sg.base ctx it),
             ("Chaotic", chaoticEvaluate sg.base ctx it),
             ("Meristic", meristicEvaluate sg.base ctx it)]).map
              (fun p => p.1) := by
      show (List.foldl aggStep (1, false, none, none) _).2.2.1 = _
      rw [aggFold_motor]
    rw [hmot]
    show (if (praxEvaluate sg.base ctx it).score = 0 then some "Praxeological"
          else if (nashEvaluate sg.base ctx it).score = 0 then some "Nash"
          else if (chaoticEvaluate sg.base ctx it).score = 0 then some "Chaotic"
          else if (meristicEvaluate sg.base ctx it).score = 0 then some "Meristic"
          else none) = _
    by_cases hp : (praxEvaluate sg.base ctx it).score = 0 <;>
      by_cases hn : (nashEvaluate sg.base ctx it).score = 0 <;>
        by_cases hc : (chaoticEvaluate sg.base ctx it).score = 0 <;>
          by_cases hm : (meristicEvaluate sg.base ctx it).score = 0 <;>
            simp [List.find?_cons, haP, haN, haC, haM, hp, hn, hc, hm]

/-- The safety-tier string round-trips through the enum. -/
theorem safetyLevel_roundtrip (s : SafetyLevel) :
    SafetyLevel.ofStr s.toStr = some s := by
  cases s <;> rfl

/-- The lifecycle-status string round-trips through the enum. -/
theorem geneStatus_roundtrip (s : GeneStatus) :
    GeneStatus.ofStr s.toStr = some s := by
  cases s <;> rfl

/-- A serialized codon deserializes to itself. -/
theorem codonFromDict_toDict (c : PraxeologicalCodon) :
    codonFromDict (codonToDict c) = some c := by
  simp [codonFromDict, codonToDict, safetyLevel_roundtrip]

/-- A serialized codon list deserializes to itself. -/
theorem codons_mapM_roundtrip (l : List PraxeologicalCodon) :
    listMapOption codonFromDict (l.map codonToDict) = some l := by
  induction l with
  | nil => rfl
  | cons c t ih => simp [listMapOption, codonFromDict_toDict, ih]

/-- A serialized gene deserializes to itself. -/
theorem geneFromDict_toDict (g : OperationalGene) :
    geneFromDict (geneToDict g) = some g := by
  simp [geneFromDict, geneToDict, geneStatus_roundtrip,
    codons_mapM_roundtrip]

/-- The serialized gene table deserializes to the original gene list. -/
theorem genes_mapM_roundtrip (l : List OperationalGene) :
    listMapOption (fun p => geneFromDict p.2)
      (l.map (fun g => (g.uid, geneToDict g))) = some l := by
  induction l with
  | nil => rfl
  | cons g t ih => simp [listMapOption, geneFromDict_toDict, ih]

/-- Rebuilding a distinct-keyed gene table by dict assignment reproduces it
(the fold of `from_dict`). -/
theorem foldl_dictInsert_of_nodup (l : List OperationalGene) :
    ∀ acc : List OperationalGene,
      (((acc ++ l).map (fun g => g.uid)).Nodup) →
      l.foldl dictInsertGene acc = acc ++ l := by
  induction l with
  | nil => intro acc _; simp
  | cons g t ih =>
    intro acc hnd
    have hnotin : g.uid ∉ acc.map (fun x => x.uid) := by
      rw [List.map_append] at hnd
      rcases List.nodup_append.mp hnd with ⟨_, _, hdisj⟩
      intro hin
      exact hdisj hin (by simp)
    have hany : acc.any (fun x => x.uid == g.uid) = false := by
      rw [List.any_eq_false]
      intro x hx hbe
      exact hnotin (List.mem_map.mpr ⟨x, hx, by simpa using hbe⟩)
    rw [List.foldl_cons]
    have hstep : dictInsertGene acc g = acc ++ [g] := by
      unfold dictInsertGene
      rw [hany]
      simp
    rw [hstep]
    have hnd2 : (((acc ++ [g]) ++ t).map (fun x => x.uid)).Nodup := by
      rw [List.append_assoc]
      simpa using hnd
    rw [ih (acc ++ [g]) hnd2, List.append_assoc]
    rfl

/-- C9: serializing a populated store and deserializing it back reproduces
the store exactly — in particular the template count, each template's unit
count and all cached scores are preserved — provided the table's identifiers
are pairwise distinct (the invariant `insert_gene` maintains, since the
table is keyed by identifier). -/
theorem c9_roundtrip (dg : DigitalGenome)
    (h : (dg.genes.map (fun g => g.uid)).Nodup) :
    genomeFromDict (genomeToDict dg) = some dg := by
  unfold genomeFromDict genomeToDict
  simp only [genes_mapM_roundtrip dg.genes, Option.pure_def,
    Option.bind_eq_bind, Option.some_bind]
  rw [show dg.genes.foldl dictInsertGene [] = [] ++ dg.genes from
      foldl_dictInsert_of_nodup dg.genes [] (by simpa using h)]
  rfl

/-- C9 witness: the two-gene store with cached fitness scores has distinct
identifiers and round-trips exactly. -/
theorem c9_roundtrip_witness :
    (genomeC9.genes.map (fun g => g.uid)).Nodup
    ∧ genomeFromDict (genomeToDict genomeC9) = some genomeC9 :=
  ⟨by decide, c9_roundtrip genomeC9 (by decide)⟩

end DGenome
